import Mathlib

/-!
Verification of the `programista` schedule-aggregator core against its
specification.  The Python modules under `src/tvguide_app/core` are shallowly
embedded below: pure functions become Lean functions on an explicit model of
Python/JSON values, stateful objects (the favorites store, the search index,
the schedule cache, the hub client) become explicit state passing, and code
that can raise returns `Option`/`Except`.

Modelling conventions, used throughout:
* Python strings are Lean `String`s; operations work on the underlying
  character list (`String.data`).
* `str.lower()` / `str.casefold()` are modelled as ASCII lowercasing
  (`Char.toLower` on every character); the embedded code only relies on the
  two agreeing on already-folded text.
* `str.strip()` removes leading/trailing ASCII whitespace.
* JSON values decoded by `json.loads` are modelled by the inductive `PyVal`;
  the textual layer of `json.dumps`/`json.loads` (a bijection on values) is
  not re-modelled.
-/

/-- Helper: `Char.toNat` after `Char.ofNat` on a plane-0 code point. -/
theorem charToNat_ofNat_valid (n : Nat) (h : n < 55296) :
    (Char.ofNat n).toNat = n := by
  have hv : n.isValidChar := Or.inl h
  simp [Char.ofNat, dif_pos hv, Char.ofNatAux, Char.toNat, UInt32.toNat]

/-- Python `str.strip` whitespace test, restricted to the ASCII range. -/
def pyWs (c : Char) : Bool :=
  c.toNat = 32 || c.toNat = 9 || c.toNat = 10 || c.toNat = 13 ||
    c.toNat = 11 || c.toNat = 12

/-- Python `str.strip()` on a character list. -/
def pyStripL (l : List Char) : List Char :=
  ((l.dropWhile pyWs).reverse.dropWhile pyWs).reverse

/-- Python `str.strip()`. -/
def pyStrip (s : String) : String :=
  ⟨pyStripL s.data⟩

/-- ASCII model of Python `str.casefold()` / `str.lower()` (see header note). -/
def pyFoldL (l : List Char) : List Char :=
  l.map Char.toLower

/-- ASCII model of Python `str.lower()` on strings. -/
def pyLower (s : String) : String :=
  ⟨pyFoldL s.data⟩

theorem toLower_toLower (c : Char) : c.toLower.toLower = c.toLower := by
  unfold Char.toLower
  by_cases h : c.toNat ≥ 65 ∧ c.toNat ≤ 90
  · rw [if_pos h]
    have ht : (Char.ofNat (c.toNat + 32)).toNat = c.toNat + 32 :=
      charToNat_ofNat_valid _ (by omega)
    rw [if_neg]
    rw [ht]
    omega
  · rw [if_neg h, if_neg h]

theorem pyWs_toLower (c : Char) : pyWs c.toLower = pyWs c := by
  unfold Char.toLower
  by_cases h : c.toNat ≥ 65 ∧ c.toNat ≤ 90
  · rw [if_pos h]
    have ht : (Char.ofNat (c.toNat + 32)).toNat = c.toNat + 32 :=
      charToNat_ofNat_valid _ (by omega)
    have h1 : c.toNat ≥ 65 := h.1
    have h2 : c.toNat ≤ 90 := h.2
    unfold pyWs
    rw [ht]
    apply Bool.eq_iff_iff.mpr
    simp only [Bool.or_eq_true, decide_eq_true_eq]
    constructor <;> intro hx <;> omega
  · rw [if_neg h]

theorem pyFoldL_idem (l : List Char) : pyFoldL (pyFoldL l) = pyFoldL l := by
  simp only [pyFoldL, List.map_map]
  exact List.map_congr_left fun c _ => toLower_toLower c

theorem pyWs_comp_toLower : (pyWs ∘ Char.toLower) = pyWs :=
  funext fun c => pyWs_toLower c

theorem pyStripL_fold (l : List Char) :
    pyStripL (pyFoldL l) = pyFoldL (pyStripL l) := by
  simp only [pyStripL, pyFoldL]
  rw [List.dropWhile_map, pyWs_comp_toLower, ← List.map_reverse,
    List.dropWhile_map, pyWs_comp_toLower, List.map_reverse]

/-! ### Decimal digits

Model of Python's `str(n)` / `int(s)` on natural numbers, plus zero padding
as used by `date.isoformat()` and `time.strftime("%H:%M")`. -/

/-- Fuel-driven digit expansion (structural recursion, so that concrete
dates and version strings evaluate inside the kernel). -/
def natDigitsF : Nat → Nat → List Char
  | 0, _ => []
  | fuel + 1, n =>
    if n < 10 then [Nat.digitChar n]
    else natDigitsF fuel (n / 10) ++ [Nat.digitChar (n % 10)]

/-- Decimal digit characters of a natural number, most significant first. -/
def natDigits (n : Nat) : List Char :=
  natDigitsF (n + 1) n

theorem natDigitsF_fuel (n : Nat) : ∀ f1 f2 : Nat, n < f1 → n < f2 →
    natDigitsF f1 n = natDigitsF f2 n := by
  induction n using Nat.strong_induction_on with
  | _ n ih =>
    intro f1 f2 h1 h2
    match f1, f2 with
    | g1 + 1, g2 + 1 =>
      simp only [natDigitsF]
      by_cases h : n < 10
      · rw [if_pos h, if_pos h]
      · rw [if_neg h, if_neg h]
        have hlt : n / 10 < n := Nat.div_lt_self (by omega) (by omega)
        rw [ih (n / 10) hlt g1 g2 (by omega) (by omega)]

theorem natDigits_eq (n : Nat) :
    natDigits n =
      if n < 10 then [Nat.digitChar n]
      else natDigits (n / 10) ++ [Nat.digitChar (n % 10)] := by
  have step : natDigitsF (n + 1) n =
      if n < 10 then [Nat.digitChar n]
      else natDigitsF n (n / 10) ++ [Nat.digitChar (n % 10)] := rfl
  show natDigitsF (n + 1) n = _
  rw [step]
  by_cases h : n < 10
  · rw [if_pos h, if_pos h]
  · rw [if_neg h, if_neg h]
    show natDigitsF n (n / 10) ++ _ = natDigitsF (n / 10 + 1) (n / 10) ++ _
    rw [natDigitsF_fuel (n / 10) n (n / 10 + 1) (by omega) (by omega)]

/-- Model of Python `str(n)` for a non-negative integer. -/
def natRepr (n : Nat) : String :=
  ⟨natDigits n⟩

/-- Model of Python `int(p)` for a digits-only string `p`. -/
def parseDigits (l : List Char) : Nat :=
  l.foldl (fun acc c => acc * 10 + (c.toNat - 48)) 0

/-- Left-pad the decimal representation with zeros to width `w`. -/
def padDigits (w : Nat) (n : Nat) : List Char :=
  List.replicate (w - (natDigits n).length) '0' ++ natDigits n

theorem digitChar_toNat (d : Nat) (h : d < 10) :
    (Nat.digitChar d).toNat = 48 + d := by
  interval_cases d <;> rfl

theorem digitChar_isDigit (d : Nat) (h : d < 10) :
    (Nat.digitChar d).isDigit = true := by
  interval_cases d <;> rfl

theorem natDigits_isDigit (n : Nat) : ∀ c ∈ natDigits n, c.isDigit = true := by
  induction n using Nat.strong_induction_on with
  | _ n ih =>
    rw [natDigits_eq]
    by_cases h : n < 10
    · rw [if_pos h]
      intro c hc
      rw [List.mem_singleton] at hc
      subst hc
      exact digitChar_isDigit n h
    · rw [if_neg h]
      intro c hc
      rw [List.mem_append] at hc
      rcases hc with hc | hc
      · exact ih (n / 10) (Nat.div_lt_self (by omega) (by omega)) c hc
      · rw [List.mem_singleton] at hc
        subst hc
        exact digitChar_isDigit _ (Nat.mod_lt _ (by omega))

theorem natDigits_ne_nil (n : Nat) : natDigits n ≠ [] := by
  rw [natDigits_eq]
  by_cases h : n < 10
  · rw [if_pos h]; simp
  · rw [if_neg h]; simp

theorem isDigit_toNat {c : Char} (h : c.isDigit = true) :
    48 ≤ c.toNat ∧ c.toNat ≤ 57 := by
  simp only [Char.isDigit, Bool.and_eq_true, decide_eq_true_eq] at h
  exact ⟨h.1, h.2⟩

theorem foldl_digits_natDigits (n : Nat) :
    ∀ a : Nat,
      (natDigits n).foldl (fun acc c => acc * 10 + (c.toNat - 48)) a =
        a * 10 ^ (natDigits n).length + n := by
  induction n using Nat.strong_induction_on with
  | _ n ih =>
    intro a
    rw [natDigits_eq]
    by_cases h : n < 10
    · rw [if_pos h]
      simp [List.foldl, digitChar_toNat n h]
    · rw [if_neg h]
      rw [List.foldl_append, ih (n / 10) (Nat.div_lt_self (by omega) (by omega)) a]
      simp only [List.foldl, List.length_append, List.length_singleton]
      rw [digitChar_toNat _ (Nat.mod_lt _ (by omega))]
      have hmod : n % 10 < 10 := Nat.mod_lt _ (by omega)
      have hdm : 10 * (n / 10) + n % 10 = n := Nat.div_add_mod n 10
      ring_nf
      omega

theorem parseDigits_natDigits (n : Nat) : parseDigits (natDigits n) = n := by
  unfold parseDigits
  rw [foldl_digits_natDigits n 0]
  simp

theorem parseDigits_pad (w n : Nat) : parseDigits (padDigits w n) = n := by
  unfold parseDigits padDigits
  rw [List.foldl_append]
  have hz : ∀ k : Nat,
      (List.replicate k '0').foldl (fun acc c => acc * 10 + (c.toNat - 48)) 0 = 0 := by
    intro k
    induction k with
    | zero => rfl
    | succ m ihm => simpa [List.replicate_succ] using ihm
  rw [hz]
  exact foldl_digits_natDigits n 0 |>.trans (by simp)

theorem padDigits_isDigit (w n : Nat) : ∀ c ∈ padDigits w n, c.isDigit = true := by
  intro c hc
  rw [padDigits, List.mem_append] at hc
  rcases hc with hc | hc
  · rw [List.eq_of_mem_replicate hc]; rfl
  · exact natDigits_isDigit n c hc

/-! ### Comparators

Lexicographic comparators used to model Python tuple-key sorting
(`list.sort(key=...)`) and SQLite `ORDER BY` over text columns (binary
collation, which on UTF-8 text agrees with code-point order). -/

/-- Sequence two comparisons: the second one breaks ties of the first. -/
def thenCmp (a b : Ordering) : Ordering :=
  match a with
  | .eq => b
  | x => x

/-- Three-way comparison on naturals. -/
def natCmp (a b : Nat) : Ordering :=
  if a < b then .lt else if b < a then .gt else .eq

/-- Code-point lexicographic three-way comparison on character lists. -/
def listCmp (a b : List Char) : Ordering :=
  match a, b with
  | [], [] => .eq
  | [], _ :: _ => .lt
  | _ :: _, [] => .gt
  | x :: xs, y :: ys => thenCmp (natCmp x.toNat y.toNat) (listCmp xs ys)

/-- Lexicographic comparison of pairs from component comparisons. -/
def prodCmp (c1 : α → α → Ordering) (c2 : β → β → Ordering)
    (x y : α × β) : Ordering :=
  thenCmp (c1 x.1 y.1) (c2 x.2 y.2)

/-- A comparator that is antisymmetric, discriminates equality, and is
transitive: enough to make its reflexive closure a total preorder. -/
structure LawfulCmp (cmp : α → α → Ordering) : Prop where
  swap_eq : ∀ a b, (cmp a b).swap = cmp b a
  eq_iff : ∀ a b, cmp a b = .eq ↔ a = b
  lt_trans : ∀ a b c, cmp a b = .lt → cmp b c = .lt → cmp a c = .lt

theorem thenCmp_eq (x y : Ordering) : thenCmp x y = .eq ↔ x = .eq ∧ y = .eq := by
  cases x <;> simp [thenCmp]

theorem thenCmp_swap (x y : Ordering) :
    (thenCmp x y).swap = thenCmp x.swap y.swap := by
  cases x <;> simp [thenCmp, Ordering.swap]

theorem natCmp_lawful : LawfulCmp natCmp := by
  refine ⟨?_, ?_, ?_⟩
  · intro a b
    unfold natCmp
    rcases Nat.lt_trichotomy a b with h | h | h
    · rw [if_pos h, if_neg (by omega), if_pos h]
      rfl
    · rw [if_neg (by omega), if_neg (by omega), if_neg (by omega), if_neg (by omega)]
      rfl
    · rw [if_neg (by omega), if_pos h, if_pos h]
      rfl
  · intro a b
    unfold natCmp
    constructor
    · intro h
      by_cases h1 : a < b
      · rw [if_pos h1] at h; exact absurd h (by simp)
      · by_cases h2 : b < a
        · rw [if_neg h1, if_pos h2] at h; exact absurd h (by simp)
        · omega
    · intro h
      subst h
      rw [if_neg (by omega), if_neg (by omega)]
  · intro a b c hab hbc
    unfold natCmp at *
    by_cases h1 : a < b
    · by_cases h2 : b < c
      · rw [if_pos (by omega)]
      · rw [if_neg h2] at hbc
        split at hbc <;> simp_all
    · rw [if_neg h1] at hab
      split at hab <;> simp_all

theorem listCmp_lawful : LawfulCmp (listCmp) := by
  refine ⟨?_, ?_, ?_⟩
  · intro a
    induction a with
    | nil => intro b; cases b <;> rfl
    | cons x xs ih =>
      intro b
      cases b with
      | nil => rfl
      | cons y ys =>
        simp only [listCmp, thenCmp_swap, natCmp_lawful.swap_eq, ih ys]
  · intro a
    induction a with
    | nil => intro b; cases b <;> simp [listCmp]
    | cons x xs ih =>
      intro b
      cases b with
      | nil => simp [listCmp]
      | cons y ys =>
        simp only [listCmp, thenCmp_eq, natCmp_lawful.eq_iff, ih ys,
          List.cons.injEq]
        constructor
        · rintro ⟨h1, h2⟩
          exact ⟨Char.eq_of_val_eq (UInt32.ext h1), h2⟩
        · rintro ⟨h1, h2⟩
          subst h1
          exact ⟨rfl, h2⟩
  · intro a
    induction a with
    | nil =>
      intro b c hab hbc
      cases b <;> cases c <;> simp_all [listCmp]
    | cons x xs ih =>
      intro b c hab hbc
      cases b with
      | nil => simp [listCmp] at hab
      | cons y ys =>
        cases c with
        | nil => simp [listCmp] at hbc
        | cons z zs =>
          simp only [listCmp] at hab hbc ⊢
          rcases h1 : natCmp x.toNat y.toNat <;> rw [h1] at hab <;>
            rcases h2 : natCmp y.toNat z.toNat <;> rw [h2] at hbc <;>
              simp [thenCmp] at hab hbc ⊢
          · have h3 := natCmp_lawful.lt_trans _ _ _ h1 h2
            rw [h3]
          · have h4 := (natCmp_lawful.eq_iff _ _).mp h2
            rw [← h4, h1]
          · have h4 := (natCmp_lawful.eq_iff _ _).mp h1
            rw [h4, h2]
          · have h4 := (natCmp_lawful.eq_iff _ _).mp h1
            have h5 := (natCmp_lawful.eq_iff _ _).mp h2
            rw [h4, h5, (natCmp_lawful.eq_iff _ _).mpr rfl]
            simp [thenCmp]
            exact ih _ _ hab hbc

theorem prodCmp_lawful {c1 : α → α → Ordering} {c2 : β → β → Ordering}
    (h1 : LawfulCmp c1) (h2 : LawfulCmp c2) : LawfulCmp (prodCmp c1 c2) := by
  refine ⟨?_, ?_, ?_⟩
  · intro a b
    simp only [prodCmp, thenCmp_swap, h1.swap_eq, h2.swap_eq]
  · intro a b
    simp only [prodCmp, thenCmp_eq, h1.eq_iff, h2.eq_iff]
    constructor
    · rintro ⟨hx, hy⟩
      exact Prod.ext hx hy
    · rintro rfl
      exact ⟨rfl, rfl⟩
  · intro a b c hab hbc
    simp only [prodCmp] at hab hbc ⊢
    rcases hx : c1 a.1 b.1 <;> rw [hx] at hab <;>
      rcases hy : c1 b.1 c.1 <;> rw [hy] at hbc <;>
        simp [thenCmp] at hab hbc ⊢
    · rw [h1.lt_trans _ _ _ hx hy]
    · rw [← (h1.eq_iff _ _).mp hy, hx]
    · rw [(h1.eq_iff _ _).mp hx, hy]
    · have ha := (h1.eq_iff _ _).mp hx
      have hb := (h1.eq_iff _ _).mp hy
      have hc : c1 a.1 c.1 = .eq := (h1.eq_iff _ _).mpr (ha.trans hb)
      rw [hc]
      simp only [thenCmp]
      exact h2.lt_trans _ _ _ hab hbc

/-- Boolean "less or equal" from a three-way comparison. -/
def cmpLe (cmp : α → α → Ordering) (a b : α) : Bool :=
  match cmp a b with
  | .gt => false
  | _ => true

theorem cmpLe_total {cmp : α → α → Ordering} (h : LawfulCmp cmp) (a b : α) :
    (cmpLe cmp a b || cmpLe cmp b a) = true := by
  unfold cmpLe
  rcases hab : cmp a b
  · simp
  · simp
  · have := h.swap_eq a b
    rw [hab] at this
    simp only [Ordering.swap] at this
    rw [← this]
    simp

theorem cmpLe_trans {cmp : α → α → Ordering} (h : LawfulCmp cmp) (a b c : α)
    (hab : cmpLe cmp a b = true) (hbc : cmpLe cmp b c = true) :
    cmpLe cmp a c = true := by
  unfold cmpLe at *
  rcases h1 : cmp a b <;> rw [h1] at hab
  · rcases h2 : cmp b c <;> rw [h2] at hbc
    · rw [h.lt_trans _ _ _ h1 h2]
    · rw [← (h.eq_iff _ _).mp h2, h1]
    · simp at hbc
  · rw [(h.eq_iff _ _).mp h1]
    exact hbc
  · simp at hab

/-! ### Python/JSON values

`PyVal` models the Python values that `json.loads` can produce (floats are
not modelled; none of the embedded code paths depend on them). -/

inductive PyVal where
  | none
  | bool (b : Bool)
  | int (n : Int)
  | str (s : String)
  | list (xs : List PyVal)
  | dict (kvs : List (String × PyVal))

/-- Lookup in a dict's key/value list, Python `dict.get(k)` (default `None`). -/
def dictGet (kvs : List (String × PyVal)) (k : String) : PyVal :=
  match kvs.find? (fun kv => kv.1 = k) with
  | some kv => kv.2
  | Option.none => .none

/-- Python truthiness of a value. -/
def pyTruthy : PyVal → Bool
  | .none => false
  | .bool b => b
  | .int n => n ≠ 0
  | .str s => s ≠ ""
  | .list xs => !xs.isEmpty
  | .dict kvs => !kvs.isEmpty

/-- Python `a or b`. -/
def pyOr (a b : PyVal) : PyVal :=
  if pyTruthy a then a else b

/-- Model of Python `str(n)` on integers. -/
def intRepr : Int → String
  | .ofNat m => natRepr m
  | .negSucc m => "-" ++ natRepr (m + 1)

mutual

/-- Model of Python `str(x)`/`repr(x)`.  String escaping inside container
reprs is not reproduced; no embedded code path inspects those reprs beyond
comparing them with date/kind literals, which they can never equal. -/
def pyRepr : PyVal → String
  | .none => "None"
  | .bool true => "True"
  | .bool false => "False"
  | .int n => intRepr n
  | .str s => "\x27" ++ s ++ "\x27"
  | .list xs => "[" ++ pyReprList xs ++ "]"
  | .dict kvs => "\x7b" ++ pyReprDict kvs ++ "\x7d"

def pyReprList : List PyVal → String
  | [] => ""
  | [x] => pyRepr x
  | x :: xs => pyRepr x ++ ", " ++ pyReprList xs

def pyReprDict : List (String × PyVal) → String
  | [] => ""
  | [kv] => "\x27" ++ kv.1 ++ "\x27: " ++ pyRepr kv.2
  | kv :: kvs => "\x27" ++ kv.1 ++ "\x27: " ++ pyRepr kv.2 ++ ", " ++ pyReprDict kvs

end

/-- Model of Python `str(x)`. -/
def pyStr (v : PyVal) : String :=
  match v with
  | .str s => s
  | _ => pyRepr v

/-- Is the value a Python `str`? (`isinstance(x, str)`). -/
def PyVal.isStr : PyVal → Bool
  | .str _ => true
  | _ => false

/-- Python `int(s)` on a string: optional sign and a nonempty digit run
(underscore separators are not modelled). -/
def parseIntStr (s : String) : Option Int :=
  match pyStripL s.data with
  | '-' :: rest =>
    if rest ≠ [] && rest.all Char.isDigit then some (-(parseDigits rest : Int))
    else Option.none
  | '+' :: rest =>
    if rest ≠ [] && rest.all Char.isDigit then some (parseDigits rest : Int)
    else Option.none
  | rest =>
    if rest ≠ [] && rest.all Char.isDigit then some (parseDigits rest : Int)
    else Option.none

/-- Model of Python `int(x)` where `TypeError`/`ValueError` yield `none`. -/
def pyIntOpt : PyVal → Option Int
  | .int n => some n
  | .bool b => some (if b then 1 else 0)
  | .str s => parseIntStr s
  | _ => Option.none

/-! ### Splitting, dates and times -/

/-- Python `str.split(sep)` with a single-character separator. -/
def splitOnChar (sep : Char) : List Char → List (List Char)
  | [] => [[]]
  | c :: cs =>
    let r := splitOnChar sep cs
    if c = sep then [] :: r
    else
      match r with
      | [] => [[c]]
      | h :: t => (c :: h) :: t

theorem splitOnChar_ne_nil (sep : Char) (l : List Char) :
    splitOnChar sep l ≠ [] := by
  cases l with
  | nil => simp [splitOnChar]
  | cons c cs =>
    simp only [splitOnChar]
    by_cases h : c = sep
    · rw [if_pos h]; simp
    · rw [if_neg h]
      rcases splitOnChar sep cs with _ | ⟨h2, t2⟩ <;> simp

theorem splitOnChar_not_mem (sep : Char) (a : List Char) (hsep : sep ∉ a) :
    splitOnChar sep a = [a] := by
  induction a with
  | nil => rfl
  | cons c cs ih =>
    simp only [List.mem_cons, not_or] at hsep
    simp only [splitOnChar]
    rw [if_neg (fun hcs : c = sep => hsep.1 hcs.symm)]
    rw [ih hsep.2]

theorem splitOnChar_append (sep : Char) (a rest : List Char) (hsep : sep ∉ a) :
    splitOnChar sep (a ++ sep :: rest) = a :: splitOnChar sep rest := by
  induction a with
  | nil =>
    simp [splitOnChar]
  | cons c cs ih =>
    simp only [List.mem_cons, not_or] at hsep
    simp only [List.cons_append, splitOnChar, List.append_eq]
    rw [if_neg (fun hcs : c = sep => hsep.1 hcs.symm)]
    rw [ih hsep.2]

/-- Model of `datetime.date`: a civil date. -/
structure PyDate where
  year : Nat
  month : Nat
  day : Nat
deriving DecidableEq

/-- Gregorian leap year. -/
def isLeap (y : Nat) : Bool :=
  (y % 4 = 0 && y % 100 ≠ 0) || y % 400 = 0

/-- Days in a civil month. -/
def daysInMonth (y m : Nat) : Nat :=
  if m = 2 then (if isLeap y then 29 else 28)
  else if m = 4 || m = 6 || m = 9 || m = 11 then 30
  else 31

/-- The invariant Python's `date` constructor enforces. -/
def PyDate.Valid (d : PyDate) : Prop :=
  1 ≤ d.year ∧ d.year ≤ 9999 ∧ 1 ≤ d.month ∧ d.month ≤ 12 ∧
    1 ≤ d.day ∧ d.day ≤ daysInMonth d.year d.month

instance (d : PyDate) : Decidable d.Valid := by
  unfold PyDate.Valid
  infer_instance

/-- Python `date.isoformat()`: zero-padded `YYYY-MM-DD`. -/
def PyDate.isoformat (d : PyDate) : String :=
  ⟨padDigits 4 d.year ++ '-' :: (padDigits 2 d.month ++ '-' :: padDigits 2 d.day)⟩

/-- Helper for `dateFromIso`: interpret the dash-separated pieces. -/
def dateFromIsoParts : List (List Char) → Option PyDate
  | [ys, ms, ds] =>
    if ys.length = 4 && ms.length = 2 && ds.length = 2 &&
        ys.all Char.isDigit && ms.all Char.isDigit && ds.all Char.isDigit then
      let y := parseDigits ys
      let m := parseDigits ms
      let d := parseDigits ds
      if 1 ≤ y && 1 ≤ m && m ≤ 12 && 1 ≤ d && d ≤ daysInMonth y m then
        some ⟨y, m, d⟩
      else Option.none
    else Option.none
  | _ => Option.none

/-- Python `date.fromisoformat` on the canonical `YYYY-MM-DD` layout
(the only layout the embedded code ever serializes). -/
def dateFromIso (s : String) : Option PyDate :=
  dateFromIsoParts (splitOnChar '-' s.data)

/-- Model of `datetime.time` (seconds/microseconds unused by the core). -/
structure PyTime where
  hour : Nat
  minute : Nat
deriving DecidableEq

/-- Python `time.strftime("%H:%M")`. -/
def PyTime.fmtHHMM (t : PyTime) : String :=
  ⟨padDigits 2 t.hour ++ ':' :: padDigits 2 t.minute⟩

/-- Modelled from the spec: `tvguide_app.core.util.parse_time_hhmm` is not
under `src/` (only its callers are).  The spec stores `start`/`end` as
`"HH:MM"` strings (§4.4), so the model parses two colon-separated digit
groups and validates them as a time of day. -/
def parse_time_hhmm (s : String) : Option PyTime :=
  match splitOnChar ':' s.data with
  | [hs, ms] =>
    if hs ≠ [] && hs.length ≤ 2 && ms.length = 2 &&
        hs.all Char.isDigit && ms.all Char.isDigit then
      let h := parseDigits hs
      let m := parseDigits ms
      if h < 24 && m < 60 then some ⟨h, m⟩ else Option.none
    else Option.none
  | _ => Option.none

theorem natDigits_length_le (k : Nat) :
    ∀ n : Nat, 1 ≤ k → n < 10 ^ k → (natDigits n).length ≤ k := by
  induction k with
  | zero => intro n h; omega
  | succ k ih =>
    intro n _ hn
    rw [natDigits_eq]
    by_cases h : n < 10
    · rw [if_pos h]
      simp
    · rw [if_neg h]
      rw [List.length_append, List.length_singleton]
      have hk : 1 ≤ k := by
        by_contra hk0
        have : k = 0 := by omega
        subst this
        simp at hn
        omega
      have hdiv : n / 10 < 10 ^ k := by
        have : n < 10 * 10 ^ k := by
          have := hn
          rw [pow_succ] at this
          omega
        omega
      have := ih (n / 10) hk hdiv
      omega

theorem padDigits_length {w n : Nat} (h : (natDigits n).length ≤ w) :
    (padDigits w n).length = w := by
  unfold padDigits
  rw [List.length_append, List.length_replicate]
  omega

theorem isDigit_ne (c : Char) (m : Nat) (hd : c.isDigit = true)
    (hm : m < 48 ∨ 57 < m) : c.toNat ≠ m := by
  have := isDigit_toNat hd
  omega

theorem not_mem_padDigits_of_not_digit {c : Char} (w n : Nat)
    (hc : c.isDigit = false) : c ∉ padDigits w n := by
  intro hmem
  have := padDigits_isDigit w n c hmem
  rw [hc] at this
  exact absurd this (by simp)

theorem dateFromIso_isoformat (d : PyDate) (h : d.Valid) :
    dateFromIso d.isoformat = some d := by
  obtain ⟨hy1, hy2, hm1, hm2, hd1, hd2⟩ := h
  have hylen : (natDigits d.year).length ≤ 4 :=
    natDigits_length_le 4 d.year (by omega) (by omega)
  have hmlen : (natDigits d.month).length ≤ 2 :=
    natDigits_length_le 2 d.month (by omega) (by omega)
  have hdm31 : daysInMonth d.year d.month ≤ 31 := by
    unfold daysInMonth
    split
    · split <;> omega
    · split <;> omega
  have hdlen : (natDigits d.day).length ≤ 2 :=
    natDigits_length_le 2 d.day (by omega) (by omega)
  have hdash : ∀ w n : Nat, ('-' : Char) ∉ padDigits w n := by
    intro w n
    exact not_mem_padDigits_of_not_digit w n (by decide)
  unfold dateFromIso PyDate.isoformat
  have hdata :
      (String.mk (padDigits 4 d.year ++ '-' ::
        (padDigits 2 d.month ++ '-' :: padDigits 2 d.day))).data =
      padDigits 4 d.year ++ '-' ::
        (padDigits 2 d.month ++ '-' :: padDigits 2 d.day) := rfl
  rw [hdata]
  rw [splitOnChar_append _ _ _ (hdash 4 d.year)]
  rw [splitOnChar_append _ _ _ (hdash 2 d.month)]
  rw [splitOnChar_not_mem _ _ (hdash 2 d.day)]
  rw [dateFromIsoParts]
  have hcond : ((padDigits 4 d.year).length = 4 &&
      (padDigits 2 d.month).length = 2 && (padDigits 2 d.day).length = 2 &&
      (padDigits 4 d.year).all Char.isDigit &&
      (padDigits 2 d.month).all Char.isDigit &&
      (padDigits 2 d.day).all Char.isDigit) = true := by
    simp only [Bool.and_eq_true, decide_eq_true_eq, List.all_eq_true]
    refine ⟨⟨⟨⟨⟨?_, ?_⟩, ?_⟩, ?_⟩, ?_⟩, ?_⟩
    · exact padDigits_length hylen
    · exact padDigits_length hmlen
    · exact padDigits_length hdlen
    · exact padDigits_isDigit 4 d.year
    · exact padDigits_isDigit 2 d.month
    · exact padDigits_isDigit 2 d.day
  rw [if_pos hcond]
  simp only [parseDigits_pad]
  have hvalid : (1 ≤ d.year && 1 ≤ d.month && d.month ≤ 12 && 1 ≤ d.day &&
      d.day ≤ daysInMonth d.year d.month) = true := by
    simp only [Bool.and_eq_true, decide_eq_true_eq]
    exact ⟨⟨⟨⟨hy1, hm1⟩, hm2⟩, hd1⟩, hd2⟩
  rw [if_pos hvalid]

/-! ### Data model (`tvguide_app/core/models.py`)

`ProviderId`/`SourceId` are plain strings in the model. -/

/-- A channel/station, `models.Source`. -/
structure Source where
  provider_id : String
  id : String
  name : String
deriving DecidableEq

/-- A program entry, `models.ScheduleItem`.  The `accessibility` field is
imported from `models.py` by `search_index.py` and `schedule_cache.py` but is
absent from the copy of `models.py` under `src/`; it is modelled from the
spec (§3): a tuple of tag strings whose constructors keep only AD/JM/N. -/
structure ScheduleItem where
  provider_id : String
  source : Source
  day : PyDate
  start_time : Option PyTime
  end_time : Option PyTime
  title : String
  subtitle : Option String
  details_ref : Option String
  details_summary : Option String
  accessibility : List String
deriving DecidableEq

/-- The search-result envelope, `search_index.SearchResult`.  The copy of
`search_index.py` under `src/` declares the first eight fields; `subtitle`,
`details_ref`, `details_summary` and `item_id` are constructed by
`hub_api.py` and are modelled from the spec (§3 SearchResult): optional,
absent (`none`) for local index rows, with `item_id` only on remote rows. -/
structure SearchResult where
  kind : String
  provider_id : String
  source_id : String
  source_name : String
  day : PyDate
  start : String
  title : String
  subtitle : Option String
  details_ref : Option String
  details_summary : Option String
  accessibility : List String
  item_id : Option Int
deriving DecidableEq

/-! ### Favorites (`tvguide_app/core/favorites.py`) -/

/-- `favorites.FavoriteRef`; `kind` is one of the strings `"tv"`/`"radio"`
for refs produced by the module's own decoder. -/
structure FavoriteRef where
  kind : String
  provider_id : String
  source_id : String
deriving DecidableEq

/-- `favorites.FavoriteEntry`: a ref plus a display name. -/
structure FavoriteEntry where
  kind : String
  provider_id : String
  source_id : String
  name : String
deriving DecidableEq

/-- `encode_favorite_source_id`, modelled at the JSON-value level: the
compact-unicode `json.dumps` serialization of this object is a bijection
onto its value and is not re-modelled. -/
def encode_favorite_source_id (ref : FavoriteRef) : PyVal :=
  .dict [("k", .str ref.kind), ("p", .str ref.provider_id), ("s", .str ref.source_id)]

/-- Python string equality test `v == s` for a value of unknown type:
only a `str` can equal a (non-empty, non-numeric-looking) string literal. -/
def pyIsStrEq (v : PyVal) (s : String) : Bool :=
  match v with
  | .str t => t = s
  | _ => false

/-- `decode_favorite_source_id` after `json.loads`: a value that was not
valid JSON is represented by feeding any non-dict value (the code returns
`None` for both). -/
def decode_favorite_source_id (v : PyVal) : Option FavoriteRef :=
  match v with
  | .dict kvs =>
    let kind := pyOr (dictGet kvs "k") (dictGet kvs "kind")
    let provider_id := pyOr (dictGet kvs "p") (dictGet kvs "provider_id")
    let source_id := pyOr (dictGet kvs "s") (dictGet kvs "source_id")
    if pyIsStrEq kind "tv" || pyIsStrEq kind "radio" then
      match provider_id, source_id with
      | .none, _ => Option.none
      | _, .none => Option.none
      | pv, sv =>
        let p := pyStrip (pyStr pv)
        let s := pyStrip (pyStr sv)
        if p ≠ "" && s ≠ "" then
          some ⟨pyStr kind, p, s⟩
        else Option.none
    else Option.none
  | _ => Option.none

/-- One step of `FavoritesStore.add_entry` on the in-memory dict of entries
(an insertion-ordered association list keyed by
`(kind, provider_id, source_id)`).  Returns the reported `bool`, the new
entries and whether `_save_locked` ran. -/
def FavoritesStore.add_entry (entries : List ((String × String × String) × FavoriteEntry))
    (entry : FavoriteEntry) :
    Bool × List ((String × String × String) × FavoriteEntry) × Bool :=
  let key := (entry.kind, entry.provider_id, entry.source_id)
  match entries.find? (fun kv => kv.1 = key) with
  | some kv =>
    if kv.2 = entry then (false, entries, false)
    else (true, entries.map (fun kv2 => if kv2.1 = key then (key, entry) else kv2), true)
  | Option.none => (true, entries ++ [(key, entry)], true)

/-! ### Composite providers (`provider_packs/wrappers.py`)

Only the methods the claims exercise are modelled; a provider is its
`provider_id` plus the dispatched methods. -/

/-- A `ScheduleProvider` as seen by `CompositeScheduleProvider`. -/
structure PyScheduleProvider where
  provider_id : String
  get_schedule : Source → PyDate → List ScheduleItem
  get_item_details : ScheduleItem → String

/-- An `ArchiveProvider` as seen by `CompositeArchiveProvider`. -/
structure PyArchiveProvider where
  provider_id : String
  get_schedule : Source → PyDate → List ScheduleItem

/-- The `_by_id` dict comprehension: on duplicate ids the later provider
wins, so lookup scans the reversed list. -/
def byIdLookup (providers : List PyScheduleProvider) (pid : String) :
    Option PyScheduleProvider :=
  providers.reverse.find? (fun p => p.provider_id = pid)

/-- `CompositeScheduleProvider.get_schedule`. -/
def CompositeScheduleProvider.get_schedule (providers : List PyScheduleProvider)
    (source : Source) (day : PyDate) : List ScheduleItem :=
  match byIdLookup providers source.provider_id with
  | some p => p.get_schedule source day
  | Option.none => []

/-- `CompositeScheduleProvider.get_item_details`. -/
def CompositeScheduleProvider.get_item_details (providers : List PyScheduleProvider)
    (item : ScheduleItem) : String :=
  match byIdLookup providers item.provider_id with
  | some p => p.get_item_details item
  | Option.none => ""

/-- `_by_id` lookup for archive providers. -/
def byIdLookupArchive (providers : List PyArchiveProvider) (pid : String) :
    Option PyArchiveProvider :=
  providers.reverse.find? (fun p => p.provider_id = pid)

/-- `CompositeArchiveProvider.get_schedule`. -/
def CompositeArchiveProvider.get_schedule (providers : List PyArchiveProvider)
    (source : Source) (day : PyDate) : List ScheduleItem :=
  match byIdLookupArchive providers source.provider_id with
  | some p => p.get_schedule source day
  | Option.none => []

/-! ### Schedule cache (`tvguide_app/core/schedule_cache.py`) -/

/-- The accessibility filter inside `_decode_schedule_items`: keep exactly
the values equal to one of the three tag strings. -/
def decodeAccTags (v : PyVal) : List String :=
  match v with
  | .list xs =>
    xs.filterMap (fun x =>
      if pyIsStrEq x "AD" || pyIsStrEq x "JM" || pyIsStrEq x "N" then
        some (pyStr x)
      else Option.none)
  | _ => []

/-- One row of `_decode_schedule_items`; `continue`d rows are `none`. -/
def decode_schedule_row (source : Source) (day : PyDate) (raw : PyVal) :
    Option ScheduleItem :=
  match raw with
  | .dict kvs =>
    let title := pyStr (pyOr (dictGet kvs "title") (.str ""))
    if title = "" then Option.none
    else
      some
        { provider_id := source.provider_id
          source := source
          day := day
          start_time :=
            match dictGet kvs "start" with
            | .str s => if s ≠ "" then parse_time_hhmm s else Option.none
            | _ => Option.none
          end_time :=
            match dictGet kvs "end" with
            | .str s => if s ≠ "" then parse_time_hhmm s else Option.none
            | _ => Option.none
          title := title
          subtitle :=
            match dictGet kvs "subtitle" with
            | .none => Option.none
            | v => some (pyStr v)
          details_ref :=
            match dictGet kvs "details_ref" with
            | .none => Option.none
            | v => some (pyStr v)
          details_summary :=
            match dictGet kvs "details_summary" with
            | .none => Option.none
            | v => some (pyStr v)
          accessibility := decodeAccTags (dictGet kvs "accessibility") }
  | _ => Option.none

/-- `_decode_schedule_items(data, source, day)`. -/
def decode_schedule_items (data : PyVal) (source : Source) (day : PyDate) :
    Option (List ScheduleItem) :=
  match data with
  | .list rows => some (rows.filterMap (decode_schedule_row source day))
  | _ => Option.none

/-- `CachedScheduleProvider.get_schedule`.  `cached` is the `get_json`
result (modelled from the spec for the `SqliteCache` not under `src/`:
`none` for a missing, expired or undecodable blob, per §4.2 and §7);
`delegate` is what `self._delegate.get_schedule` would return.  The result
pairs the returned items with whether the delegate was invoked; the
write-through `set_json` (exceptions swallowed) does not affect either. -/
def CachedScheduleProvider.get_schedule (cached : Option PyVal)
    (delegate : List ScheduleItem) (source : Source) (day : PyDate)
    (force_refresh : Bool) : List ScheduleItem × Bool :=
  if !force_refresh then
    match decode_schedule_items (cached.getD .none) source day with
    | some items => (items, false)
    | Option.none => (delegate, true)
  else (delegate, true)

/-! ### Update checker (`tvguide_app/core/app_updates.py`) -/

/-- Exceptions the embedded code can raise. -/
inductive PyExc where
  | attributeError
  | httpError
  | runtimeError
deriving DecidableEq

/-- `app_updates.AppUpdateCheckResult`. -/
structure AppUpdateCheckResult where
  current_version : String
  latest_version : Option String
  update_available : Bool
  release_url : Option String
  installer_name : Option String
  installer_url : Option String
  message : String
deriving DecidableEq

/-- The groups `(?:\.[0-9]+){0,3}` of `_version_tuple`'s regex: greedily
consume up to `k` further `.digits` groups. -/
def versionGroups : Nat → List Char → List Char
  | 0, _ => []
  | k + 1, l =>
    match l with
    | '.' :: rest =>
      let ds := rest.takeWhile Char.isDigit
      if ds.isEmpty then []
      else '.' :: ds ++ versionGroups k (rest.dropWhile Char.isDigit)
    | _ => []

/-- The text matched by `^([0-9]+(?:\.[0-9]+){0,3})`, or `"0"` when the
regex does not match (no leading digit). -/
def versionCore (l : List Char) : List Char :=
  let d1 := l.takeWhile Char.isDigit
  if d1.isEmpty then ['0']
  else d1 ++ versionGroups 3 (l.dropWhile Char.isDigit)

/-- The tail of `_version_tuple` after the leading `v`/`V` is dropped:
regex core, split on dots, keep non-empty groups, pad to four. -/
def version_tuple_core (v2 : List Char) : Nat × Nat × Nat × Nat :=
  let core := versionCore v2
  let parts := ((splitOnChar '.' core).filter (fun p => !p.isEmpty)).map parseDigits
  let padded := (parts ++ [0, 0, 0, 0]).take 4
  match padded with
  | [a, b, c, d] => (a, b, c, d)
  | _ => (0, 0, 0, 0)

/-- `app_updates._version_tuple`. -/
def version_tuple (version : String) : Nat × Nat × Nat × Nat :=
  let v := pyStripL version.data
  let v2 :=
    match v with
    | c :: rest => if c = 'v' || c = 'V' then rest else c :: rest
    | [] => []
  version_tuple_core v2

/-- Python `>` on the 4-tuples returned by `_version_tuple`. -/
def versionTupleCmp (a b : Nat × Nat × Nat × Nat) : Ordering :=
  prodCmp natCmp (prodCmp natCmp (prodCmp natCmp natCmp)) a b

/-- `a > b` on version tuples. -/
def versionTupleGt (a b : Nat × Nat × Nat × Nat) : Bool :=
  match versionTupleCmp a b with
  | .gt => true
  | _ => false

/-- The candidate loop of `_pick_windows_installer_asset`: first candidate
name bound in `by_name` to a truthy asset carrying a non-empty string
`browser_download_url` wins. -/
def pickAssetLoop (byNamePairs : List (String × PyVal)) :
    List String → Option String × Option String
  | [] => (Option.none, Option.none)
  | name :: rest =>
    match (byNamePairs.reverse.find? (fun kv => kv.1 = name)).map
        (fun kv => kv.2) with
    | Option.none => pickAssetLoop byNamePairs rest
    | some a =>
      if !pyTruthy a then pickAssetLoop byNamePairs rest
      else
        match a with
        | .dict kvs =>
          match dictGet kvs "browser_download_url" with
          | .str url =>
            if url ≠ "" then (some name, some url)
            else pickAssetLoop byNamePairs rest
          | _ => pickAssetLoop byNamePairs rest
        | _ => pickAssetLoop byNamePairs rest

/-- `app_updates._pick_windows_installer_asset`.  Building `by_name` calls
`a.get("name")` on every asset, which raises `AttributeError` when an
asset row is not a dict.  The `by_name` dict keeps the later duplicate, so
lookup scans the reversed pair list. -/
def pick_windows_installer_asset (assets : List PyVal) (arch : String) :
    Except PyExc (Option String × Option String) :=
  let candidates :=
    if arch = "arm64" then
      ["programista-win-arm64.msi", "programista-win-arm64.exe",
        "programista-win-x64.msi", "programista.exe"]
    else
      ["programista-win-x64.msi", "programista-win-x64.exe", "programista.exe"]
  match assets.mapM (fun a =>
      match a with
      | .dict kvs => Except.ok (pyStr (pyOr (dictGet kvs "name") (.str "")), a)
      | _ => Except.error PyExc.attributeError) with
  | .error e => .error e
  | .ok byNamePairs => .ok (pickAssetLoop byNamePairs candidates)

/-- `app_updates.check_for_app_update`.  Parameters stand for the
environment probes and the HTTP fetch: `storePackagedWindows` is
`platform.system()=="windows" and is_packaged_app()`, `isWindows` is the
later `platform.system()=="windows"` test, `fetched` is the outcome of
`http.get_text` + `json.loads` (`error msg` when either raised). -/
def check_for_app_update (storePackagedWindows : Bool) (isWindows : Bool)
    (arch : String) (fetched : Except String PyVal) (current_version : String) :
    Except PyExc AppUpdateCheckResult :=
  if storePackagedWindows then
    .ok ⟨current_version, Option.none, false, Option.none, Option.none, Option.none,
      "Ta wersja programu jest aktualizowana przez Microsoft Store."⟩
  else
    match fetched with
    | .error e =>
      .ok ⟨current_version, Option.none, false, Option.none, Option.none, Option.none,
        "Nie udało się sprawdzić aktualizacji: " ++ e⟩
    | .ok data =>
      match data with
      | .dict kvs =>
        let tag := pyStr (pyOr (dictGet kvs "tag_name") (.str ""))
        let latest_version : Option String :=
          if tag ≠ "" then
            some ⟨tag.data.dropWhile (fun c => c = 'v' || c = 'V')⟩
          else Option.none
        let release_url : Option String :=
          match dictGet kvs "html_url" with
          | .str s => if s ≠ "" then some s else Option.none
          | _ => Option.none
        match latest_version with
        | Option.none =>
          .ok ⟨current_version, Option.none, false, release_url, Option.none,
            Option.none, "Nie udało się odczytać wersji z GitHuba."⟩
        | some lv =>
          let update_available :=
            versionTupleGt (version_tuple lv) (version_tuple current_version)
          let assets :=
            match dictGet kvs "assets" with
            | .list xs => xs
            | _ => []
          match (if isWindows then pick_windows_installer_asset assets arch
              else .ok (Option.none, Option.none)) with
          | .error e => .error e
          | .ok (installer_name, installer_url) =>
            if update_available then
              .ok ⟨current_version, some lv, true, release_url, installer_name,
                installer_url,
                "Dostępna jest nowa wersja: " ++ lv ++ " (masz: " ++
                  current_version ++ ")."⟩
            else
              .ok ⟨current_version, some lv, false, release_url, installer_name,
                installer_url,
                "Masz aktualną wersję (" ++ current_version ++ ")."⟩
      | _ => .error .attributeError

/-! ### Search index (`tvguide_app/core/search_index.py`)

The SQLite table `search_items` is modelled as an insertion-ordered list of
rows; the primary key `(kind, provider_id, source_id, day, start,
title_norm)` drives the `ON CONFLICT ... DO UPDATE` upsert. -/

/-- The four search kinds (also the hub's). -/
def allSearchKinds : List String :=
  ["tv", "radio", "tv_accessibility", "archive"]

/-- One stored row of `search_items`. -/
structure IndexRow where
  kind : String
  provider_id : String
  source_id : String
  source_name : String
  day : String
  start : String
  title : String
  title_norm : String
  features : String
  indexed_at : Nat
deriving DecidableEq

/-- The table's primary key. -/
def rowPK (r : IndexRow) : String × String × String × String × String × String :=
  (r.kind, r.provider_id, r.source_id, r.day, r.start, r.title_norm)

/-- Python `",".join(...)`. -/
def joinComma : List String → String
  | [] => ""
  | [s] => s
  | s :: rest => s ++ "," ++ joinComma rest

/-- The per-item row built by `SearchIndex.add_items`; skipped items give
`none`. -/
def item_to_row (kind : String) (now : Nat) (it : ScheduleItem) :
    Option IndexRow :=
  if kind = "tv_accessibility" && it.accessibility.isEmpty then Option.none
  else
    let title := pyStrip it.title
    if title = "" then Option.none
    else
      some
        { kind := kind
          provider_id := it.provider_id
          source_id := it.source.id
          source_name := pyStrip it.source.name
          day := it.day.isoformat
          start :=
            match it.start_time with
            | some t => t.fmtHHMM
            | Option.none => ""
          title := title
          title_norm := pyLower title
          features := if it.accessibility.isEmpty then "" else joinComma it.accessibility
          indexed_at := now }

/-- `INSERT ... ON CONFLICT(PK) DO UPDATE`: refresh `source_name`, `title`,
`features`, `indexed_at` of the conflicting row, else append. -/
def upsertRow (table : List IndexRow) (r : IndexRow) : List IndexRow :=
  if table.any (fun t => rowPK t = rowPK r) then
    table.map (fun t =>
      if rowPK t = rowPK r then
        { t with
          source_name := r.source_name
          title := r.title
          features := r.features
          indexed_at := r.indexed_at }
      else t)
  else table ++ [r]

/-- `SearchIndex.add_items(kind, items)` at time `now`. -/
def SearchIndex.add_items (kind : String) (items : List ScheduleItem)
    (now : Nat) (table : List IndexRow) : List IndexRow :=
  (items.filterMap (item_to_row kind now)).foldl upsertRow table

/-- `_escape_like`: prefix `\`, `%` and `_` with a backslash. -/
def escapeLike : List Char → List Char
  | [] => []
  | c :: cs =>
    if c = '\\' || c = '%' || c = '_' then '\\' :: c :: escapeLike cs
    else c :: escapeLike cs

/-- All suffixes of a list, longest first. -/
def listTails : List Char → List (List Char)
  | [] => [[]]
  | c :: cs => (c :: cs) :: listTails cs

/-- SQLite `LIKE` with `ESCAPE '\'`; literal characters compare
ASCII-case-insensitively as SQLite's default `LIKE` does.  `%` consumes an
arbitrary prefix, expressed via suffix enumeration to keep the recursion
structural.  A trailing unescorted backslash never occurs in patterns built
by `_escape_like`; it is treated as matching nothing. -/
def likeMatch : List Char → List Char → Bool
  | [], t => t.isEmpty
  | c :: ps, t =>
    if c = '%' then (listTails t).any (fun s => likeMatch ps s)
    else if c = '_' then
      match t with
      | [] => false
      | _ :: ts => likeMatch ps ts
    else if c = '\\' then
      match ps with
      | [] => false
      | p :: ps2 =>
        match t with
        | [] => false
        | x :: ts => x.toLower = p.toLower && likeMatch ps2 ts
    else
      match t with
      | [] => false
      | x :: ts => x.toLower = c.toLower && likeMatch ps ts

/-- Sort key of the index `ORDER BY day ASC, start ASC, source_name ASC,
title ASC` (binary text collation). -/
def idxKey (r : IndexRow) : List Char × List Char × List Char × List Char :=
  (r.day.data, r.start.data, r.source_name.data, r.title.data)

/-- Comparator over `idxKey`. -/
def idxCmp : (List Char × List Char × List Char × List Char) →
    (List Char × List Char × List Char × List Char) → Ordering :=
  prodCmp listCmp (prodCmp listCmp (prodCmp listCmp listCmp))

/-- Boolean order used to sort index rows. -/
def rowLeB (a b : IndexRow) : Bool :=
  cmpLe idxCmp (idxKey a) (idxKey b)

/-- Decode one selected row into the `SearchResult` envelope (rows whose
`day` fails to parse are skipped). -/
def indexRowDecode (r : IndexRow) : Option SearchResult :=
  match dateFromIso r.day with
  | Option.none => Option.none
  | some d =>
    some
      { kind := r.kind
        provider_id := r.provider_id
        source_id := r.source_id
        source_name := r.source_name
        day := d
        start := r.start
        title := r.title
        subtitle := Option.none
        details_ref := Option.none
        details_summary := Option.none
        accessibility :=
          ((splitOnChar ',' r.features.data).filter (fun p => !p.isEmpty)).map
            (fun l => (⟨l⟩ : String))
        item_id := Option.none }

/-- The `WHERE kind IN (...) AND title_norm LIKE ? ESCAPE '\'` clause of
`SearchIndex.search` applied to the table. -/
def searchFilter (q_norm : List Char) (kinds1 : List String)
    (table : List IndexRow) : List IndexRow :=
  table.filter (fun r =>
    kinds1.contains r.kind &&
      likeMatch ('%' :: (escapeLike q_norm ++ ['%'])) r.title_norm.data)

/-- `SearchIndex.search(query, kinds, limit)` over a table state. -/
def SearchIndex.search (query : String) (kinds : List String) (limit : Nat)
    (table : List IndexRow) : List SearchResult :=
  let q := pyStrip query
  if q = "" then []
  else
    let kinds1 := if kinds.isEmpty then allSearchKinds else kinds
    let q_norm := pyLower q
    let selected := searchFilter q_norm.data kinds1 table
    let ordered := List.insertionSort (fun a b => rowLeB a b = true) selected
    (ordered.take limit).filterMap indexRowDecode

/-! ### Hub client (`tvguide_app/core/hub_api.py`)

`HubClient.search` is embedded against an explicit environment carrying the
stored API key and the transport outcomes of the at-most-three HTTP posts
the method can make.  The list of emitted HTTP calls is part of the result
so that frame claims about "no request made" are expressible. -/

/-- An outbound HTTP call made by `HubClient.search`. -/
inductive HubCall where
  | register
  | search (query : String) (kinds : List String) (limit : Int)
      (cursor : Option Int)
deriving DecidableEq

/-- Environment of one `HubClient.search` invocation: the settings-store
key and the transport results.  `registerResp` is the parsed body of
`POST /register` (`error ()` when the request, `raise_for_status` or
`resp.json()` raised inside `_register`'s `try`).  `searchResp1`/
`searchResp2` are status code and parsed body of the first `/search` post
and of the replay after a 401. -/
structure HubEnv where
  storedKey : Option String
  registerResp : Except Unit PyVal
  searchResp1 : Nat × PyVal
  searchResp2 : Nat × PyVal

/-- The `_register` path of `ensure_api_key` (one `POST /register`).
`obj.get("api_key")` sits outside `_register`'s `try`, so a non-dict
register body raises `AttributeError`. -/
def HubClient.register_once (registerResp : Except Unit PyVal) :
    Except PyExc (List HubCall × Option String) :=
  match registerResp with
  | .error _ => .ok ([HubCall.register], Option.none)
  | .ok obj =>
    match obj with
    | .dict kvs =>
      match dictGet kvs "api_key" with
      | .str s =>
        if pyStrip s ≠ "" then .ok ([HubCall.register], some (pyStrip s))
        else .ok ([HubCall.register], Option.none)
      | _ => .ok ([HubCall.register], Option.none)
    | _ => .error .attributeError

/-- `HubClient.ensure_api_key` over stored key and register outcome: the
returned calls are the HTTP posts made. -/
def HubClient.ensure_api_key (storedKey : Option String)
    (registerResp : Except Unit PyVal) :
    Except PyExc (List HubCall × Option String) :=
  match storedKey with
  | some k =>
    if k ≠ "" then .ok ([], some k)
    else HubClient.register_once registerResp
  | Option.none => HubClient.register_once registerResp

/-- Sort key of the final `out.sort(key=lambda r: (r.day, r.start,
r.source_name.casefold(), r.title.casefold()))`. -/
def hubKey (r : SearchResult) :
    (Nat × Nat × Nat) × List Char × List Char × List Char :=
  ((r.day.year, r.day.month, r.day.day), r.start.data,
    pyFoldL r.source_name.data, pyFoldL r.title.data)

/-- Comparator over `hubKey`. -/
def hubCmp : ((Nat × Nat × Nat) × List Char × List Char × List Char) →
    ((Nat × Nat × Nat) × List Char × List Char × List Char) → Ordering :=
  prodCmp (prodCmp natCmp (prodCmp natCmp natCmp))
    (prodCmp listCmp (prodCmp listCmp listCmp))

/-- Boolean order used for the hub result sort. -/
def hubLeB (a b : SearchResult) : Bool :=
  cmpLe hubCmp (hubKey a) (hubKey b)

/-- Parse one row of the `/search` response; `continue`d rows are `none`. -/
def hub_row_to_result (row : PyVal) : Option SearchResult :=
  match row with
  | .dict kvs =>
    let kind := pyStrip (pyStr (pyOr (dictGet kvs "kind") (.str "")))
    if !(kind = "tv" || kind = "radio" || kind = "tv_accessibility" ||
        kind = "archive") then Option.none
    else
      let provider_id := pyStrip (pyStr (pyOr (dictGet kvs "provider_id") (.str "")))
      let source_id := pyStrip (pyStr (pyOr (dictGet kvs "source_id") (.str "")))
      let source_name := pyStrip (pyStr (pyOr (dictGet kvs "source_name") (.str "")))
      let title := pyStrip (pyStr (pyOr (dictGet kvs "title") (.str "")))
      if provider_id = "" || source_id = "" || source_name = "" || title = "" then
        Option.none
      else
        match dateFromIso (pyStr (dictGet kvs "day")) with
        | Option.none => Option.none
        | some day =>
          let start_raw := pyStrip (pyStr (pyOr (dictGet kvs "start_time") (.str "")))
          let start :=
            if 5 ≤ start_raw.data.length then (⟨start_raw.data.take 5⟩ : String)
            else start_raw
          let subtitle :=
            match dictGet kvs "subtitle" with
            | .none => Option.none
            | v =>
              let s := pyStrip (pyStr v)
              if s = "" then Option.none else some s
          let details_ref :=
            match dictGet kvs "details_ref" with
            | .none => Option.none
            | v =>
              let s := pyStrip (pyStr v)
              if s = "" then Option.none else some s
          let details_summary :=
            match dictGet kvs "details_summary" with
            | .none => Option.none
            | v =>
              let s := pyStrip (pyStr v)
              if s = "" then Option.none else some s
          let item_id :=
            match dictGet kvs "item_id" with
            | .none => Option.none
            | v => pyIntOpt v
          let feats :=
            match dictGet kvs "accessibility" with
            | .list fs => (fs.map (fun f => pyStrip (pyStr f))).filter (fun f => f ≠ "")
            | _ => []
          let accessibility :=
            feats.filter (fun f => f = "AD" || f = "JM" || f = "N")
          some ⟨kind, provider_id, source_id, source_name, day, start, title,
            subtitle, details_ref, details_summary, accessibility, item_id⟩
  | _ => Option.none

/-- Rows 135-203 of `hub_api.py`: keep the well-formed rows and sort
(`list.sort` is stable, as is insertion sort, so the results agree). -/
def hub_process_rows (rows : List PyVal) : List SearchResult :=
  List.insertionSort (fun a b => hubLeB a b = true)
    (rows.filterMap hub_row_to_result)

/-- `kinds = {all four}` when the caller's set is empty. -/
def hub_normalized_kinds (kinds : List String) : List String :=
  if kinds.isEmpty then allSearchKinds else kinds

/-- Status/body handling shared by the one- and two-request paths:
`raise_for_status`, the `isinstance(data, list)` check, row processing. -/
def hub_finish (calls : List HubCall) (resp : Nat × PyVal) :
    Except PyExc (List HubCall × List SearchResult) :=
  if 400 ≤ resp.1 then .error .httpError
  else
    match resp.2 with
    | .list rows => .ok (calls, hub_process_rows rows)
    | _ => .error .runtimeError

/-- `HubClient.search(query, kinds=..., limit=..., cursor=...)`.  Returns
the HTTP calls it performed alongside its result; exceptions become
`Except.error`. -/
def HubClient.search (env : HubEnv) (query : String) (kinds : List String)
    (limit : Int) (cursor : Option Int) :
    Except PyExc (List HubCall × List SearchResult) :=
  match HubClient.ensure_api_key env.storedKey env.registerResp with
  | .error e => .error e
  | .ok (calls0, keyOpt) =>
    match keyOpt with
    | Option.none => .error .runtimeError
    | some _ =>
      let kindsSorted :=
        List.insertionSort (fun a b : String => cmpLe listCmp a.data b.data = true)
          (hub_normalized_kinds kinds)
      let q := pyStrip query
      let limitClamped := max 1 (min limit 200)
      if q = "" then .ok (calls0, [])
      else
        let call := HubCall.search q kindsSorted limitClamped cursor
        let calls1 := calls0 ++ [call]
        if env.searchResp1.1 = 401 then
          match HubClient.register_once env.registerResp with
          | .error e => .error e
          | .ok (calls2, key2) =>
            match key2 with
            | Option.none => .error .httpError
            | some _ => hub_finish (calls1 ++ calls2 ++ [call]) env.searchResp2
        else hub_finish calls1 env.searchResp1

/-! ## Claims -/

/-- Claim C9: for a composite provider, a source or item whose
`provider_id` matches none of the underlying providers makes
`CompositeScheduleProvider.get_schedule` and
`CompositeArchiveProvider.get_schedule` return `[]` and
`CompositeScheduleProvider.get_item_details` return `""`, without raising. -/
theorem composite_unknown_provider_id_empty
    (sps : List PyScheduleProvider) (aps : List PyArchiveProvider)
    (source : Source) (day : PyDate) (item : ScheduleItem)
    (hs : ∀ p ∈ sps, p.provider_id ≠ source.provider_id)
    (hi : ∀ p ∈ sps, p.provider_id ≠ item.provider_id)
    (ha : ∀ p ∈ aps, p.provider_id ≠ source.provider_id) :
    CompositeScheduleProvider.get_schedule sps source day = [] ∧
    CompositeScheduleProvider.get_item_details sps item = "" ∧
    CompositeArchiveProvider.get_schedule aps source day = [] := by
  have h1 : byIdLookup sps source.provider_id = Option.none := by
    unfold byIdLookup
    rw [List.find?_eq_none]
    intro p hp
    simp only [decide_eq_true_eq]
    exact hs p (List.mem_reverse.mp hp)
  have h2 : byIdLookup sps item.provider_id = Option.none := by
    unfold byIdLookup
    rw [List.find?_eq_none]
    intro p hp
    simp only [decide_eq_true_eq]
    exact hi p (List.mem_reverse.mp hp)
  have h3 : byIdLookupArchive aps source.provider_id = Option.none := by
    unfold byIdLookupArchive
    rw [List.find?_eq_none]
    intro p hp
    simp only [decide_eq_true_eq]
    exact ha p (List.mem_reverse.mp hp)
  refine ⟨?_, ?_, ?_⟩
  · unfold CompositeScheduleProvider.get_schedule
    rw [h1]
  · unfold CompositeScheduleProvider.get_item_details
    rw [h2]
  · unfold CompositeArchiveProvider.get_schedule
    rw [h3]

/-- Witness for C9 at a concrete composite with one provider `"x"` and a
source/item routed to the unknown id `"z"`. -/
theorem composite_unknown_provider_id_empty_witness :
    CompositeScheduleProvider.get_schedule
        [⟨"x", fun _ _ => [], fun _ => "w"⟩] ⟨"z", "s", "n"⟩ ⟨2026, 1, 5⟩ = [] ∧
    CompositeScheduleProvider.get_item_details
        [⟨"x", fun _ _ => [], fun _ => "w"⟩]
        ⟨"z", ⟨"z", "s", "n"⟩, ⟨2026, 1, 5⟩, Option.none, Option.none, "T",
          Option.none, Option.none, Option.none, []⟩ = "" ∧
    CompositeArchiveProvider.get_schedule
        [⟨"y", fun _ _ => []⟩] ⟨"z", "s", "n"⟩ ⟨2026, 1, 5⟩ = [] :=
  composite_unknown_provider_id_empty
    [⟨"x", fun _ _ => [], fun _ => "w"⟩] [⟨"y", fun _ _ => []⟩]
    ⟨"z", "s", "n"⟩ ⟨2026, 1, 5⟩
    ⟨"z", ⟨"z", "s", "n"⟩, ⟨2026, 1, 5⟩, Option.none, Option.none, "T",
      Option.none, Option.none, Option.none, []⟩
    (by intro p hp; rw [List.mem_singleton] at hp; subst hp; decide)
    (by intro p hp; rw [List.mem_singleton] at hp; subst hp; decide)
    (by intro p hp; rw [List.mem_singleton] at hp; subst hp; decide)

/-- Claim C10: `FavoritesStore.add_entry` returns `false` and leaves the
entries and the file untouched exactly when an equal entry (same kind,
provider, source and name) is already stored under the key; otherwise it
returns `true`. -/
theorem favorites_add_entry_duplicate_noop
    (entries : List ((String × String × String) × FavoriteEntry))
    (e : FavoriteEntry) :
    (FavoritesStore.add_entry entries e = (false, entries, false) ↔
      entries.find? (fun kv => kv.1 = (e.kind, e.provider_id, e.source_id)) =
        some ((e.kind, e.provider_id, e.source_id), e)) ∧
    (entries.find? (fun kv => kv.1 = (e.kind, e.provider_id, e.source_id)) ≠
        some ((e.kind, e.provider_id, e.source_id), e) →
      (FavoritesStore.add_entry entries e).1 = true) := by
  cases hf : entries.find?
      (fun kv => kv.1 = (e.kind, e.provider_id, e.source_id)) with
  | none =>
    refine ⟨⟨fun h => ?_, fun h => ?_⟩, fun _ => ?_⟩
    · simp only [FavoritesStore.add_entry, hf, Prod.mk.injEq] at h
      exact absurd h.1 (by simp)
    · exact absurd h (by simp)
    · simp only [FavoritesStore.add_entry, hf]
  | some kv =>
    have hkv1 : kv.1 = (e.kind, e.provider_id, e.source_id) := by
      have := List.find?_some hf
      simpa using this
    by_cases he : kv.2 = e
    · have hkv : kv = ((e.kind, e.provider_id, e.source_id), e) :=
        Prod.ext hkv1 he
      refine ⟨⟨fun _ => ?_, fun _ => ?_⟩, fun hne => ?_⟩
      · exact congrArg some hkv
      · simp [FavoritesStore.add_entry, hf, he]
      · exact absurd (congrArg some hkv) hne
    · refine ⟨⟨fun h => ?_, fun h => ?_⟩, fun _ => ?_⟩
      · simp [FavoritesStore.add_entry, hf, he] at h
      · have := Option.some.inj h
        exact absurd (congrArg Prod.snd this) he
      · simp [FavoritesStore.add_entry, hf, he]

/-- Witness for C10: adding an already stored identical entry reports
`false` and performs no save; adding to an empty store reports `true`. -/
theorem favorites_add_entry_duplicate_noop_witness :
    FavoritesStore.add_entry [(("tv", "p", "s"), ⟨"tv", "p", "s", "N"⟩)]
        ⟨"tv", "p", "s", "N"⟩ =
      (false, [(("tv", "p", "s"), ⟨"tv", "p", "s", "N"⟩)], false) ∧
    (FavoritesStore.add_entry [] ⟨"tv", "p", "s", "N"⟩).1 = true :=
  ⟨(favorites_add_entry_duplicate_noop
      [(("tv", "p", "s"), ⟨"tv", "p", "s", "N"⟩)] ⟨"tv", "p", "s", "N"⟩).1.mpr
      (by decide),
    (favorites_add_entry_duplicate_noop [] ⟨"tv", "p", "s", "N"⟩).2 (by decide)⟩

/-- Claim C7 (code bug): `check_for_app_update` raises `AttributeError` to
its caller when the release manifest is valid JSON but not an object (here
the JSON array `[]`, on a non-Windows, non-store-packaged run), instead of
returning an `update_available=false` result. -/
theorem check_for_app_update_non_dict_manifest_raises :
    check_for_app_update false false "x64" (.ok (PyVal.list [])) "1.0.0" =
      .error .attributeError := rfl

/-- Claim C4 counterexample: a cached value holding one entry with no
title does not behave as a miss — the call returns the decoded (empty)
list from cache without delegating, instead of the delegate's items. -/
theorem schedule_cache_missing_title_counterexample :
    CachedScheduleProvider.get_schedule (some (PyVal.list [PyVal.dict []]))
        [⟨"p", ⟨"p", "s", "n"⟩, ⟨2026, 1, 5⟩, Option.none, Option.none, "Hello",
          Option.none, Option.none, Option.none, []⟩]
        ⟨"p", "s", "n"⟩ ⟨2026, 1, 5⟩ false = ([], false) ∧
    (([], false) : List ScheduleItem × Bool) ≠
      ([⟨"p", ⟨"p", "s", "n"⟩, ⟨2026, 1, 5⟩, Option.none, Option.none, "Hello",
          Option.none, Option.none, Option.none, []⟩], true) := by
  decide

/-- Claim C4 amended: `CachedScheduleProvider.get_schedule` behaves as a
miss (delegates and returns the delegate's items) exactly when the stored
value fails to decode as a JSON list (bad JSON included); entries whose
title is missing or empty are merely dropped by the row decoder, and the
remaining cached rows are returned without delegating. -/
theorem schedule_cache_decode_miss_amended (cached : Option PyVal)
    (delegate : List ScheduleItem) (source : Source) (day : PyDate) :
    (decode_schedule_items (cached.getD .none) source day = Option.none →
      CachedScheduleProvider.get_schedule cached delegate source day false =
        (delegate, true)) ∧
    (∀ items, decode_schedule_items (cached.getD .none) source day = some items →
      CachedScheduleProvider.get_schedule cached delegate source day false =
        (items, false)) ∧
    (∀ kvs, pyStr (pyOr (dictGet kvs "title") (.str "")) = "" →
      decode_schedule_row source day (.dict kvs) = Option.none) := by
  refine ⟨fun h => ?_, fun items h => ?_, fun kvs h => ?_⟩
  · simp only [CachedScheduleProvider.get_schedule, h, Bool.not_false, if_pos]
  · simp only [CachedScheduleProvider.get_schedule, h, Bool.not_false, if_pos]
  · simp only [decode_schedule_row, h, if_pos]

/-- Witness for C4 amended: a non-list cached value delegates; a list
cached value is served from cache without delegating; an entry with no
title decodes to nothing. -/
theorem schedule_cache_decode_miss_amended_witness :
    CachedScheduleProvider.get_schedule (some (PyVal.str "garbage"))
        [⟨"p", ⟨"p", "s", "n"⟩, ⟨2026, 1, 5⟩, Option.none, Option.none, "Hello",
          Option.none, Option.none, Option.none, []⟩]
        ⟨"p", "s", "n"⟩ ⟨2026, 1, 5⟩ false =
      ([⟨"p", ⟨"p", "s", "n"⟩, ⟨2026, 1, 5⟩, Option.none, Option.none, "Hello",
          Option.none, Option.none, Option.none, []⟩], true) ∧
    CachedScheduleProvider.get_schedule (some (PyVal.list []))
        [⟨"p", ⟨"p", "s", "n"⟩, ⟨2026, 1, 5⟩, Option.none, Option.none, "Hello",
          Option.none, Option.none, Option.none, []⟩]
        ⟨"p", "s", "n"⟩ ⟨2026, 1, 5⟩ false = ([], false) ∧
    decode_schedule_row ⟨"p", "s", "n"⟩ ⟨2026, 1, 5⟩ (.dict [("x", .int 1)]) =
      Option.none :=
  ⟨(schedule_cache_decode_miss_amended (some (PyVal.str "garbage")) _ _ _).1
      (by decide),
    (schedule_cache_decode_miss_amended (some (PyVal.list [])) _ _ _).2.1 []
      (by decide),
    (schedule_cache_decode_miss_amended (some (PyVal.list [])) []
        ⟨"p", "s", "n"⟩ ⟨2026, 1, 5⟩).2.2 [("x", .int 1)] (by decide)⟩

theorem decodeAccTags_subset (v : PyVal) :
    ∀ t ∈ decodeAccTags v, t = "AD" ∨ t = "JM" ∨ t = "N" := by
  intro t ht
  cases v with
  | none => simp [decodeAccTags] at ht
  | bool b => simp [decodeAccTags] at ht
  | int n => simp [decodeAccTags] at ht
  | str s => simp [decodeAccTags] at ht
  | dict kvs => simp [decodeAccTags] at ht
  | list xs =>
    simp only [decodeAccTags] at ht
    rw [List.mem_filterMap] at ht
    obtain ⟨x, hx, hxt⟩ := ht
    by_cases hcond : (pyIsStrEq x "AD" || pyIsStrEq x "JM" || pyIsStrEq x "N") = true
    · rw [if_pos hcond] at hxt
      cases x with
      | str s =>
        have hs : pyStr (.str s) = t := Option.some.inj hxt
        simp only [pyStr] at hs
        subst hs
        simp only [pyIsStrEq, Bool.or_eq_true, decide_eq_true_eq] at hcond
        rcases hcond with (h | h) | h
        · exact Or.inl h
        · exact Or.inr (Or.inl h)
        · exact Or.inr (Or.inr h)
      | none => simp [pyIsStrEq] at hcond
      | bool b => simp [pyIsStrEq] at hcond
      | int n => simp [pyIsStrEq] at hcond
      | list ys => simp [pyIsStrEq] at hcond
      | dict kvs => simp [pyIsStrEq] at hcond
    · rw [if_neg hcond] at hxt
      exact absurd hxt (by simp)

theorem decode_schedule_row_acc (source : Source) (day : PyDate) (raw : PyVal)
    (it : ScheduleItem) (h : decode_schedule_row source day raw = some it) :
    ∀ t ∈ it.accessibility, t = "AD" ∨ t = "JM" ∨ t = "N" := by
  cases raw with
  | none => simp [decode_schedule_row] at h
  | bool b => simp [decode_schedule_row] at h
  | int n => simp [decode_schedule_row] at h
  | str s => simp [decode_schedule_row] at h
  | list xs => simp [decode_schedule_row] at h
  | dict kvs =>
    simp only [decode_schedule_row] at h
    by_cases ht0 : pyStr (pyOr (dictGet kvs "title") (.str "")) = ""
    · rw [if_pos ht0] at h
      exact absurd h (by simp)
    · rw [if_neg ht0] at h
      have hit := Option.some.inj h
      subst hit
      exact decodeAccTags_subset _

theorem hub_row_to_result_props (row : PyVal) (r : SearchResult)
    (h : hub_row_to_result row = some r) :
    (∀ t ∈ r.accessibility, t = "AD" ∨ t = "JM" ∨ t = "N") ∧
    r.start.data.length ≤ 5 := by
  cases row with
  | none => simp [hub_row_to_result] at h
  | bool b => simp [hub_row_to_result] at h
  | int n => simp [hub_row_to_result] at h
  | str s => simp [hub_row_to_result] at h
  | list xs => simp [hub_row_to_result] at h
  | dict kvs =>
    simp only [hub_row_to_result] at h
    split at h
    · exact absurd h (by simp)
    · split at h
      · exact absurd h (by simp)
      · split at h
        · exact absurd h (by simp)
        · rename_i day hday
          have hit := Option.some.inj h
          subst hit
          constructor
          · intro t ht
            rw [List.mem_filter] at ht
            have := ht.2
            simp only [Bool.or_eq_true, decide_eq_true_eq] at this
            rcases this with (h1 | h1) | h1
            · exact Or.inl h1
            · exact Or.inr (Or.inl h1)
            · exact Or.inr (Or.inr h1)
          · by_cases hlen : 5 ≤ (pyStrip (pyStr (pyOr (dictGet kvs "start_time")
                (.str "")))).data.length
            · rw [if_pos hlen]
              dsimp only
              simp only [List.length_take]
              omega
            · rw [if_neg hlen]
              dsimp only
              omega

/-- Claim C3: `ScheduleItem` values built from external data carry only the
accessibility tags AD/JM/N — both the schedule-cache row decoder and the
hub search-row parser discard every other tag. -/
theorem accessibility_only_known_tags :
    (∀ (data : PyVal) (source : Source) (day : PyDate)
        (items : List ScheduleItem),
      decode_schedule_items data source day = some items →
      ∀ it ∈ items, ∀ t ∈ it.accessibility, t = "AD" ∨ t = "JM" ∨ t = "N") ∧
    (∀ (row : PyVal) (r : SearchResult), hub_row_to_result row = some r →
      ∀ t ∈ r.accessibility, t = "AD" ∨ t = "JM" ∨ t = "N") := by
  constructor
  · intro data source day items hdec it hit t ht
    cases data with
    | none => simp [decode_schedule_items] at hdec
    | bool b => simp [decode_schedule_items] at hdec
    | int n => simp [decode_schedule_items] at hdec
    | str sv => simp [decode_schedule_items] at hdec
    | dict kvs => simp [decode_schedule_items] at hdec
    | list rows =>
      simp only [decode_schedule_items] at hdec
      have hitems := Option.some.inj hdec
      subst hitems
      rw [List.mem_filterMap] at hit
      obtain ⟨raw, _, hrow⟩ := hit
      exact decode_schedule_row_acc source day raw it hrow t ht
  · intro row r h t ht
    exact (hub_row_to_result_props row r h).1 t ht

/-- Witness for C3: both decoders at inputs carrying an unknown tag `"XX"`
alongside `"AD"` produce tag lists within the known set. -/
theorem accessibility_only_known_tags_witness :
    ("AD" = "AD" ∨ "AD" = "JM" ∨ "AD" = "N") ∧
    ("N" = "AD" ∨ "N" = "JM" ∨ "N" = "N") :=
  ⟨accessibility_only_known_tags.1
      (.list [.dict [("title", .str "T"),
        ("accessibility", .list [.str "AD", .str "XX"])]])
      ⟨"p", "s", "n"⟩ ⟨2026, 1, 5⟩
      [⟨"p", ⟨"p", "s", "n"⟩, ⟨2026, 1, 5⟩, Option.none, Option.none, "T",
        Option.none, Option.none, Option.none, ["AD"]⟩]
      (by decide)
      ⟨"p", ⟨"p", "s", "n"⟩, ⟨2026, 1, 5⟩, Option.none, Option.none, "T",
        Option.none, Option.none, Option.none, ["AD"]⟩
      (by decide) "AD" (by decide),
    accessibility_only_known_tags.2
      (.dict [("kind", .str "tv"), ("provider_id", .str "p"),
        ("source_id", .str "s"), ("source_name", .str "n"),
        ("title", .str "T"), ("day", .str "2026-01-05"),
        ("accessibility", .list [.str "N", .str "XX"])])
      ⟨"tv", "p", "s", "n", ⟨2026, 1, 5⟩, "", "T", Option.none, Option.none,
        Option.none, ["N"], Option.none⟩
      (by decide) "N" (by decide)⟩

/-- Claim C5 counterexample: a valid ref (kind `tv`, non-empty ids) whose
`provider_id` carries leading whitespace does not round-trip — the decoder
strips it. -/
theorem favorites_roundtrip_counterexample :
    decode_favorite_source_id (encode_favorite_source_id ⟨"tv", " a", "b"⟩) ≠
      some ⟨"tv", " a", "b"⟩ := by
  decide

/-- Claim C5 amended: `decode ∘ encode` is the identity on refs whose kind
is `tv`/`radio` and whose ids are non-empty and free of leading/trailing
whitespace (the decoder strips both ids); an effective kind outside
`tv`/`radio` decodes to `none`; a missing `p`/`provider_id` (resp.
`s`/`source_id`) decodes to `none`; non-dict JSON decodes to `none`;
legacy key names are accepted on read. -/
theorem favorites_roundtrip_amended :
    (∀ ref : FavoriteRef,
      (ref.kind = "tv" ∨ ref.kind = "radio") →
      ref.provider_id ≠ "" → pyStrip ref.provider_id = ref.provider_id →
      ref.source_id ≠ "" → pyStrip ref.source_id = ref.source_id →
      decode_favorite_source_id (encode_favorite_source_id ref) = some ref) ∧
    (∀ kvs : List (String × PyVal),
      pyIsStrEq (pyOr (dictGet kvs "k") (dictGet kvs "kind")) "tv" = false →
      pyIsStrEq (pyOr (dictGet kvs "k") (dictGet kvs "kind")) "radio" = false →
      decode_favorite_source_id (.dict kvs) = Option.none) ∧
    (∀ kvs : List (String × PyVal),
      dictGet kvs "p" = .none → dictGet kvs "provider_id" = .none →
      decode_favorite_source_id (.dict kvs) = Option.none) ∧
    (∀ kvs : List (String × PyVal),
      dictGet kvs "s" = .none → dictGet kvs "source_id" = .none →
      decode_favorite_source_id (.dict kvs) = Option.none) ∧
    (∀ b : Bool, ∀ n : Int, ∀ t : String, ∀ xs : List PyVal,
      decode_favorite_source_id .none = Option.none ∧
      decode_favorite_source_id (.bool b) = Option.none ∧
      decode_favorite_source_id (.int n) = Option.none ∧
      decode_favorite_source_id (.str t) = Option.none ∧
      decode_favorite_source_id (.list xs) = Option.none) ∧
    (∀ ref : FavoriteRef,
      (ref.kind = "tv" ∨ ref.kind = "radio") →
      ref.provider_id ≠ "" → pyStrip ref.provider_id = ref.provider_id →
      ref.source_id ≠ "" → pyStrip ref.source_id = ref.source_id →
      decode_favorite_source_id
        (.dict [("kind", .str ref.kind), ("provider_id", .str ref.provider_id),
          ("source_id", .str ref.source_id)]) = some ref) := by
  refine ⟨?_, ?_, ?_, ?_, ?_, ?_⟩
  · intro ref hkind hp hps hs hss
    obtain ⟨kind, pid, sid⟩ := ref
    simp only at hkind hp hps hs hss
    rcases hkind with h | h <;> subst h <;>
      simp [encode_favorite_source_id, decode_favorite_source_id, dictGet,
        List.find?, pyOr, pyTruthy, pyIsStrEq, pyStr, hp, hs, hps, hss]
  · intro kvs h1 h2
    simp only [decode_favorite_source_id, h1, h2, Bool.or_self, if_neg]
    simp
  · intro kvs hp1 hp2
    simp only [decode_favorite_source_id, hp1, hp2]
    split
    · simp [pyOr, pyTruthy]
    · rfl
  · intro kvs hs1 hs2
    simp only [decode_favorite_source_id, hs1, hs2]
    split
    · rcases hpv : pyOr (dictGet kvs "p") (dictGet kvs "provider_id") with
        _ | b | n | t | xs | kvs2 <;> simp [pyOr, pyTruthy]
    · rfl
  · intro b n t xs
    exact ⟨rfl, rfl, rfl, rfl, rfl⟩
  · intro ref hkind hp hps hs hss
    obtain ⟨kind, pid, sid⟩ := ref
    simp only at hkind hp hps hs hss
    rcases hkind with h | h <;> subst h <;>
      simp [decode_favorite_source_id, dictGet, List.find?, pyOr, pyTruthy,
        pyIsStrEq, pyStr, hp, hs, hps, hss]

/-- Witness for C5 amended, at concrete refs and dicts. -/
theorem favorites_roundtrip_amended_witness :
    decode_favorite_source_id (encode_favorite_source_id ⟨"tv", "tele", "ch1"⟩) =
      some ⟨"tv", "tele", "ch1"⟩ ∧
    decode_favorite_source_id (.dict [("k", .str "video"), ("p", .str "a"),
      ("s", .str "b")]) = Option.none ∧
    decode_favorite_source_id (.dict [("k", .str "tv"), ("s", .str "b")]) =
      Option.none ∧
    decode_favorite_source_id (.dict [("k", .str "tv"), ("p", .str "a")]) =
      Option.none ∧
    decode_favorite_source_id (.list []) = Option.none ∧
    decode_favorite_source_id (.dict [("kind", .str "radio"),
      ("provider_id", .str "pr"), ("source_id", .str "Jedynka")]) =
      some ⟨"radio", "pr", "Jedynka"⟩ :=
  ⟨favorites_roundtrip_amended.1 ⟨"tv", "tele", "ch1"⟩ (Or.inl rfl)
      (by decide) (by decide) (by decide) (by decide),
    favorites_roundtrip_amended.2.1 [("k", .str "video"), ("p", .str "a"),
      ("s", .str "b")] (by decide) (by decide),
    favorites_roundtrip_amended.2.2.1 [("k", .str "tv"), ("s", .str "b")]
      rfl rfl,
    favorites_roundtrip_amended.2.2.2.1 [("k", .str "tv"), ("p", .str "a")]
      rfl rfl,
    (favorites_roundtrip_amended.2.2.2.2.1 false 0 "" []).2.2.2.2,
    favorites_roundtrip_amended.2.2.2.2.2 ⟨"radio", "pr", "Jedynka"⟩
      (Or.inr rfl) (by decide) (by decide) (by decide) (by decide)⟩

theorem dropWhile_all_false {p : Char → Bool} :
    ∀ l : List Char, (∀ c ∈ l, p c = false) → l.dropWhile p = l := by
  intro l h
  cases l with
  | nil => rfl
  | cons c cs =>
    rw [List.dropWhile_cons, if_neg]
    rw [h c (by simp)]
    simp

theorem pyStripL_id (l : List Char) (h : ∀ c ∈ l, pyWs c = false) :
    pyStripL l = l := by
  unfold pyStripL
  rw [dropWhile_all_false l h]
  rw [dropWhile_all_false l.reverse (fun c hc => h c (List.mem_reverse.mp hc))]
  exact List.reverse_reverse l

theorem takeWhile_all_true {p : Char → Bool} :
    ∀ l : List Char, (∀ c ∈ l, p c = true) → l.takeWhile p = l := by
  intro l h
  induction l with
  | nil => rfl
  | cons c cs ih =>
    rw [List.takeWhile_cons, h c (by simp)]
    simp [ih (fun d hd => h d (by simp [hd]))]

theorem dropWhile_all_true {p : Char → Bool} :
    ∀ l : List Char, (∀ c ∈ l, p c = true) → l.dropWhile p = [] := by
  intro l h
  induction l with
  | nil => rfl
  | cons c cs ih =>
    rw [List.dropWhile_cons, if_pos (by rw [h c (by simp)])]
    exact ih (fun d hd => h d (by simp [hd]))

theorem takeWhile_append_stop {p : Char → Bool} (a : List Char) {x : Char}
    (b : List Char) (ha : ∀ c ∈ a, p c = true) (hx : p x = false) :
    (a ++ x :: b).takeWhile p = a := by
  induction a with
  | nil =>
    rw [List.nil_append, List.takeWhile_cons, hx]
    rfl
  | cons c cs ih =>
    rw [List.cons_append, List.takeWhile_cons, ha c (by simp)]
    simp [ih (fun d hd => ha d (by simp [hd]))]

theorem dropWhile_append_stop {p : Char → Bool} (a : List Char) {x : Char}
    (b : List Char) (ha : ∀ c ∈ a, p c = true) (hx : p x = false) :
    (a ++ x :: b).dropWhile p = x :: b := by
  induction a with
  | nil =>
    rw [List.nil_append, List.dropWhile_cons, if_neg (by rw [hx]; simp)]
  | cons c cs ih =>
    rw [List.cons_append, List.dropWhile_cons, if_pos (by rw [ha c (by simp)])]
    exact ih (fun d hd => ha d (by simp [hd]))

theorem pyWs_of_digit {c : Char} (h : c.isDigit = true) : pyWs c = false := by
  have := isDigit_toNat h
  simp only [pyWs, Bool.or_eq_false_iff, decide_eq_false_iff_not]
  omega

theorem dot_not_mem_natDigits (n : Nat) : ('.' : Char) ∉ natDigits n := by
  intro hmem
  have := natDigits_isDigit n '.' hmem
  exact absurd this (by decide)

theorem version_tuple_vABC (A B C : Nat) :
    version_tuple ("v" ++ natRepr A ++ "." ++ natRepr B ++ "." ++ natRepr C) =
      (A, B, C, 0) := by
  have hdata : ("v" ++ natRepr A ++ "." ++ natRepr B ++ "." ++ natRepr C).data =
      'v' :: (natDigits A ++ '.' :: (natDigits B ++ '.' :: natDigits C)) := by
    simp only [natRepr, String.data_append]
    simp [List.append_assoc]
  have hAdig := natDigits_isDigit A
  have hBdig := natDigits_isDigit B
  have hCdig := natDigits_isDigit C
  have hnows : ∀ c ∈ 'v' :: (natDigits A ++ '.' :: (natDigits B ++ '.' :: natDigits C)),
      pyWs c = false := by
    intro c hc
    rw [List.mem_cons] at hc
    rcases hc with rfl | hc
    · decide
    · rw [List.mem_append] at hc
      rcases hc with hc | hc
      · exact pyWs_of_digit (hAdig c hc)
      · rw [List.mem_cons] at hc
        rcases hc with rfl | hc
        · decide
        · rw [List.mem_append] at hc
          rcases hc with hc | hc
          · exact pyWs_of_digit (hBdig c hc)
          · rw [List.mem_cons] at hc
            rcases hc with rfl | hc
            · decide
            · exact pyWs_of_digit (hCdig c hc)
  have hcore : versionCore (natDigits A ++ '.' :: (natDigits B ++ '.' :: natDigits C)) =
      natDigits A ++ '.' :: (natDigits B ++ '.' :: (natDigits C ++ [])) := by
    unfold versionCore
    rw [takeWhile_append_stop _ _ hAdig (by decide)]
    rw [dropWhile_append_stop _ _ hAdig (by decide)]
    rw [if_neg (by simp [natDigits_ne_nil A])]
    congr 1
    show versionGroups 3 ('.' :: (natDigits B ++ '.' :: natDigits C)) = _
    simp only [versionGroups]
    rw [takeWhile_append_stop _ _ hBdig (by decide)]
    rw [dropWhile_append_stop _ _ hBdig (by decide)]
    rw [if_neg (by simp [natDigits_ne_nil B])]
    simp only [versionGroups]
    rw [takeWhile_all_true _ hCdig, dropWhile_all_true _ hCdig]
    rw [if_neg (by simp [natDigits_ne_nil C])]
    rfl
  unfold version_tuple
  rw [hdata, pyStripL_id _ hnows]
  show version_tuple_core (natDigits A ++ '.' :: (natDigits B ++ '.' :: natDigits C)) =
    (A, B, C, 0)
  unfold version_tuple_core
  rw [hcore]
  dsimp only
  rw [splitOnChar_append _ _ _ (dot_not_mem_natDigits A)]
  rw [splitOnChar_append _ _ _ (dot_not_mem_natDigits B)]
  rw [List.append_nil]
  rw [splitOnChar_not_mem _ _ (dot_not_mem_natDigits C)]
  rw [List.filter_cons_of_pos (by simp [natDigits_ne_nil A]),
    List.filter_cons_of_pos (by simp [natDigits_ne_nil B]),
    List.filter_cons_of_pos (by simp [natDigits_ne_nil C])]
  simp only [List.filter_nil, List.map_cons, List.map_nil,
    parseDigits_natDigits]
  rfl

/-- Claim C8: `_version_tuple("vA.B.C") = (A, B, C, 0)` for all naturals
`A`, `B`, `C`; the tuple keeps the first up-to-four numeric dotted groups,
pads with zeros and ignores pre-release suffixes; and
`_version_tuple("v0.1.18") > _version_tuple("0.1.2")`. -/
theorem version_tuple_claim :
    (∀ A B C : Nat,
      version_tuple ("v" ++ natRepr A ++ "." ++ natRepr B ++ "." ++ natRepr C) =
        (A, B, C, 0)) ∧
    versionTupleGt (version_tuple "v0.1.18") (version_tuple "0.1.2") = true ∧
    version_tuple "1.2.3-rc1" = (1, 2, 3, 0) ∧
    version_tuple "1.2" = (1, 2, 0, 0) ∧
    version_tuple "1" = (1, 0, 0, 0) ∧
    version_tuple "1.2.3.4.5" = (1, 2, 3, 4) :=
  ⟨version_tuple_vABC, by decide, by decide, by decide, by decide, by decide⟩

theorem register_once_calls (rr : Except Unit PyVal) (calls2 : List HubCall)
    (keyOpt2 : Option String)
    (h2 : HubClient.register_once rr = .ok (calls2, keyOpt2)) :
    calls2 = [HubCall.register] := by
  unfold HubClient.register_once at h2
  rcases rr with e | obj
  · have hp := Except.ok.inj h2
    injection hp with h1 h2'
    exact h1.symm
  · rcases obj with _ | b | n | t | xs | kvs
    case dict =>
      have h3 : (match dictGet kvs "api_key" with
          | PyVal.str s =>
            if pyStrip s ≠ "" then
              Except.ok ([HubCall.register], some (pyStrip s))
            else Except.ok ([HubCall.register], Option.none)
          | _ => Except.ok ([HubCall.register], Option.none)) =
          Except.ok (calls2, keyOpt2) := h2
      rcases hkv : dictGet kvs "api_key" with _ | b | n | t | xs2 | kvs2 <;>
        rw [hkv] at h3
      case str =>
        have h4 : (if pyStrip t ≠ "" then
            Except.ok ([HubCall.register], some (pyStrip t))
          else (Except.ok ([HubCall.register], Option.none) :
            Except PyExc (List HubCall × Option String))) =
            Except.ok (calls2, keyOpt2) := h3
        by_cases hne : pyStrip t ≠ ""
        · rw [if_pos hne] at h4
          have hp := Except.ok.inj h4
          injection hp with h1 h2'
          exact h1.symm
        · rw [if_neg hne] at h4
          have hp := Except.ok.inj h4
          injection hp with h1 h2'
          exact h1.symm
      all_goals
        (have hp := Except.ok.inj h3
         injection hp with h1 h2'
         exact h1.symm)
    all_goals exact absurd h2 (by simp)

theorem ensure_api_key_calls_register (sk : Option String)
    (rr : Except Unit PyVal) (calls : List HubCall) (keyOpt : Option String)
    (h : HubClient.ensure_api_key sk rr = .ok (calls, keyOpt)) :
    ∀ c ∈ calls, c = HubCall.register := by
  rcases sk with _ | k
  · unfold HubClient.ensure_api_key at h
    rw [register_once_calls rr calls keyOpt h]
    intro c hc
    simpa using hc
  · unfold HubClient.ensure_api_key at h
    have h2 : (if k ≠ "" then Except.ok ([], some k)
        else HubClient.register_once rr) = Except.ok (calls, keyOpt) := h
    by_cases hk : k ≠ ""
    · rw [if_pos hk] at h2
      have hp := Except.ok.inj h2
      injection hp with h1 h2'
      rw [← h1]
      intro c hc
      simp at hc
    · rw [if_neg hk] at h2
      rw [register_once_calls rr calls keyOpt h2]
      intro c hc
      simpa using hc

/-- Claim C6 amended: a `HubClient.search` call whose query is blank after
stripping issues no `/search` request and returns the empty list — the only
request it may issue is the `/register` post of `ensure_api_key` (and none
at all when a non-empty API key is already stored).  The kinds set is never
empty after normalization (an empty set normalizes to all four kinds), so
the claim's second trigger cannot occur. -/
theorem hub_blank_query_no_search (env : HubEnv) (query : String)
    (kinds : List String) (limit : Int) (cursor : Option Int)
    (hq : pyStrip query = "") :
    (∀ calls out,
      HubClient.search env query kinds limit cursor = .ok (calls, out) →
      out = [] ∧ ∀ c ∈ calls, c = HubCall.register) ∧
    hub_normalized_kinds kinds ≠ [] ∧
    (∀ k, env.storedKey = some k → k ≠ "" →
      HubClient.search env query kinds limit cursor = .ok ([], [])) := by
  refine ⟨?_, ?_, ?_⟩
  · intro calls out h
    unfold HubClient.search at h
    rcases hens : HubClient.ensure_api_key env.storedKey env.registerResp with
      e | ⟨calls0, keyOpt⟩
    · rw [hens] at h
      exact absurd h (by simp)
    · rw [hens] at h
      rcases keyOpt with _ | k
      · exact absurd h (by simp)
      · simp only [hq, reduceIte] at h
        have hp := Except.ok.inj h
        injection hp with h1 h2'
        refine ⟨h2'.symm, ?_⟩
        intro c hc
        rw [← h1] at hc
        exact ensure_api_key_calls_register _ _ _ _ hens c hc
  · unfold hub_normalized_kinds
    by_cases hk : kinds.isEmpty
    · rw [if_pos hk]
      decide
    · rw [if_neg hk]
      intro hnil
      rw [hnil] at hk
      exact hk rfl
  · intro k hsk hkne
    have hens2 : HubClient.ensure_api_key (some k) env.registerResp =
        Except.ok ([], some k) := by
      show (if k ≠ "" then Except.ok ([], some k)
          else HubClient.register_once env.registerResp) = Except.ok ([], some k)
      rw [if_pos hkne]
    simp [HubClient.search, hsk, hens2, hq]

/-- Claim C6 counterexample: a `search` call with a blank query on a client
without a stored API key performs an HTTP request — the `/register` post
made by `ensure_api_key` before the blank-query check. -/
theorem hub_blank_query_counterexample :
    HubClient.search
        ⟨Option.none, .ok (PyVal.dict [("api_key", PyVal.str "k")]),
          (200, PyVal.list []), (200, PyVal.list [])⟩
        "" [] 200 Option.none = .ok ([HubCall.register], []) ∧
    ([HubCall.register] : List HubCall) ≠ [] :=
  ⟨rfl, by decide⟩

/-- Witness for C6 amended: with a stored key, a whitespace-only query
returns empty making no HTTP call at all. -/
theorem hub_blank_query_no_search_witness :
    HubClient.search
        ⟨some "key", .error (), (200, PyVal.list []), (200, PyVal.list [])⟩
        "  " ["tv"] 200 Option.none = .ok ([], []) :=
  (hub_blank_query_no_search
      ⟨some "key", .error (), (200, PyVal.list []), (200, PyVal.list [])⟩
      "  " ["tv"] 200 Option.none (by decide)).2.2 "key" rfl (by decide)

theorem hubCmp_lawful : LawfulCmp hubCmp :=
  prodCmp_lawful
    (prodCmp_lawful natCmp_lawful (prodCmp_lawful natCmp_lawful natCmp_lawful))
    (prodCmp_lawful listCmp_lawful (prodCmp_lawful listCmp_lawful listCmp_lawful))

theorem hubLeB_trans (a b c : SearchResult) (h1 : hubLeB a b = true)
    (h2 : hubLeB b c = true) : hubLeB a c = true :=
  cmpLe_trans hubCmp_lawful _ _ _ h1 h2

theorem hubLeB_total (a b : SearchResult) : (hubLeB a b || hubLeB b a) = true :=
  cmpLe_total hubCmp_lawful _ _

theorem hub_process_rows_sorted (rows : List PyVal) :
    List.Pairwise (fun a b => hubLeB a b = true) (hub_process_rows rows) := by
  unfold hub_process_rows
  haveI : IsTrans SearchResult (fun a b => hubLeB a b = true) :=
    ⟨fun a b c => hubLeB_trans a b c⟩
  haveI : IsTotal SearchResult (fun a b => hubLeB a b = true) :=
    ⟨fun a b => by
      have := hubLeB_total a b
      rcases Bool.or_eq_true_iff.mp this with h | h
      · exact Or.inl h
      · exact Or.inr h⟩
  exact List.sorted_insertionSort _ _

theorem hub_process_rows_mem (rows : List PyVal) (r : SearchResult)
    (h : r ∈ hub_process_rows rows) :
    ∃ row ∈ rows, hub_row_to_result row = some r := by
  unfold hub_process_rows at h
  rw [List.mem_insertionSort, List.mem_filterMap] at h
  exact h

theorem hub_finish_shape (callsIn : List HubCall) (resp : Nat × PyVal)
    (calls : List HubCall) (out : List SearchResult)
    (h : hub_finish callsIn resp = .ok (calls, out)) :
    ∃ rows : List PyVal, resp.2 = PyVal.list rows ∧ out = hub_process_rows rows := by
  unfold hub_finish at h
  by_cases hst : 400 ≤ resp.1
  · rw [if_pos hst] at h
    exact absurd h (by simp)
  · rw [if_neg hst] at h
    rcases hb : resp.2 with _ | b | n | t | rows | kvs <;> rw [hb] at h
    · exact absurd h (by simp)
    · exact absurd h (by simp)
    · exact absurd h (by simp)
    · exact absurd h (by simp)
    · exact ⟨rows, rfl, (congrArg Prod.snd (Except.ok.inj h)).symm⟩
    · exact absurd h (by simp)

theorem hub_search_ok_shape (env : HubEnv) (query : String)
    (kinds : List String) (limit : Int) (cursor : Option Int)
    (calls : List HubCall) (out : List SearchResult)
    (h : HubClient.search env query kinds limit cursor = .ok (calls, out)) :
    out = [] ∨
    ∃ rows : List PyVal,
      (env.searchResp1.2 = PyVal.list rows ∨ env.searchResp2.2 = PyVal.list rows) ∧
      out = hub_process_rows rows := by
  unfold HubClient.search at h
  rcases hens : HubClient.ensure_api_key env.storedKey env.registerResp with
    e | ⟨calls0, keyOpt⟩ <;> rw [hens] at h
  · exact absurd h (by simp)
  · rcases keyOpt with _ | k
    · exact absurd h (by simp)
    · dsimp only at h
      by_cases hq : pyStrip query = ""
      · rw [if_pos hq] at h
        have hp := Except.ok.inj h
        injection hp with h1 h2
        exact Or.inl h2.symm
      · rw [if_neg hq] at h
        by_cases h401 : env.searchResp1.1 = 401
        · rw [if_pos h401] at h
          rcases hro : HubClient.register_once env.registerResp with
            e | ⟨calls2, key2⟩ <;> rw [hro] at h
          · exact absurd h (by simp)
          · rcases key2 with _ | k2
            · exact absurd h (by simp)
            · obtain ⟨rows, hrows, hout⟩ := hub_finish_shape _ _ _ _ h
              exact Or.inr ⟨rows, Or.inr hrows, hout⟩
        · rw [if_neg h401] at h
          obtain ⟨rows, hrows, hout⟩ := hub_finish_shape _ _ _ _ h
          exact Or.inr ⟨rows, Or.inl hrows, hout⟩

/-- Claim C1: on every successful `HubClient.search` call, the returned
rows all arise from parsing a row of the HTTP response through the shared
`SearchResult` envelope (malformed rows dropped, `day` ISO-parsed,
`start_time` truncated to at most `HH:MM`, only AD/JM/N kept, `item_id`
carried by the row parser), and the returned list is sorted by
`(day, start, casefolded source_name, casefolded title)`. -/
theorem hub_search_success_rows (env : HubEnv) (query : String)
    (kinds : List String) (limit : Int) (cursor : Option Int)
    (calls : List HubCall) (out : List SearchResult)
    (h : HubClient.search env query kinds limit cursor = .ok (calls, out)) :
    List.Pairwise (fun a b => hubLeB a b = true) out ∧
    ∀ r ∈ out,
      (∀ t ∈ r.accessibility, t = "AD" ∨ t = "JM" ∨ t = "N") ∧
      r.start.data.length ≤ 5 ∧
      ∃ rows : List PyVal,
        (env.searchResp1.2 = PyVal.list rows ∨ env.searchResp2.2 = PyVal.list rows) ∧
        ∃ row ∈ rows, hub_row_to_result row = some r := by
  rcases hub_search_ok_shape env query kinds limit cursor calls out h with
    hout | ⟨rows, hrows, hout⟩
  · subst hout
    exact ⟨List.Pairwise.nil, by simp⟩
  · subst hout
    refine ⟨hub_process_rows_sorted rows, ?_⟩
    intro r hr
    obtain ⟨row, hrow, hparse⟩ := hub_process_rows_mem rows r hr
    exact ⟨(hub_row_to_result_props row r hparse).1,
      (hub_row_to_result_props row r hparse).2, rows, hrows, row, hrow, hparse⟩

/-- Witness for C1: one successful call against a one-row response; the
returned row keeps only the known tag and a 5-character start. -/
theorem hub_search_success_rows_witness :
    ("AD" = "AD" ∨ "AD" = "JM" ∨ "AD" = "N") ∧
    ("10:00" : String).data.length ≤ 5 :=
  have h := hub_search_success_rows
    ⟨some "k", .error (),
      (200, PyVal.list [.dict [("kind", .str "tv"), ("provider_id", .str "p"),
        ("source_id", .str "s"), ("source_name", .str "Nm"),
        ("title", .str "T"), ("day", .str "2026-01-05"),
        ("start_time", .str "10:00:00"), ("item_id", .int 42),
        ("accessibility", .list [.str "AD", .str "XX"])]]),
      (200, PyVal.list [])⟩
    "T" [] 200 Option.none
    [HubCall.search "T" ["archive", "radio", "tv", "tv_accessibility"] 200
      Option.none]
    [⟨"tv", "p", "s", "Nm", ⟨2026, 1, 5⟩, "10:00", "T", Option.none,
      Option.none, Option.none, ["AD"], some 42⟩]
    rfl
  ⟨(h.2 ⟨"tv", "p", "s", "Nm", ⟨2026, 1, 5⟩, "10:00", "T", Option.none,
      Option.none, Option.none, ["AD"], some 42⟩ (by decide)).1 "AD" (by decide),
    (h.2 ⟨"tv", "p", "s", "Nm", ⟨2026, 1, 5⟩, "10:00", "T", Option.none,
      Option.none, Option.none, ["AD"], some 42⟩ (by decide)).2.1⟩

theorem self_mem_listTails (t : List Char) : t ∈ listTails t := by
  cases t with
  | nil => simp [listTails]
  | cons c cs => simp [listTails]

theorem likeMatch_cons_eq (c : Char) (ps t : List Char) :
    likeMatch (c :: ps) t =
      if c = '%' then (listTails t).any (fun s => likeMatch ps s)
      else if c = '_' then
        match t with
        | [] => false
        | _ :: ts => likeMatch ps ts
      else if c = '\\' then
        match ps with
        | [] => false
        | p :: ps2 =>
          match t with
          | [] => false
          | x :: ts => x.toLower = p.toLower && likeMatch ps2 ts
      else
        match t with
        | [] => false
        | x :: ts => x.toLower = c.toLower && likeMatch ps ts := by
  rw [likeMatch.eq_def]

theorem likeMatch_pct (ps t : List Char) (h : likeMatch ps t = true) :
    likeMatch ('%' :: ps) t = true := by
  rw [likeMatch_cons_eq, if_pos rfl, List.any_eq_true]
  exact ⟨t, self_mem_listTails t, h⟩

theorem likeMatch_esc_self : ∀ t : List Char,
    likeMatch (escapeLike t ++ ['%']) t = true := by
  intro t
  induction t with
  | nil =>
    simp [escapeLike, likeMatch, listTails]
  | cons c cs ih =>
    simp only [escapeLike]
    by_cases hc : c = '\\' || c = '%' || c = '_'
    · rw [if_pos hc]
      rw [List.cons_append, likeMatch_cons_eq]
      rw [if_neg (by decide), if_neg (by decide), if_pos rfl]
      simp [ih]
    · rw [if_neg hc]
      simp only [Bool.or_eq_true, decide_eq_true_eq, not_or] at hc
      rw [List.cons_append, likeMatch_cons_eq]
      rw [if_neg hc.1.2, if_neg hc.2, if_neg hc.1.1]
      simp [ih]

theorem fold_strip_fold (d : List Char) :
    pyFoldL (pyStripL (pyFoldL d)) = pyFoldL (pyStripL d) := by
  rw [pyStripL_fold, pyFoldL_idem]

theorem pyStrip_pyLower_ne (s : String) (h : pyStrip s ≠ "") :
    pyStrip (pyLower s) ≠ "" := by
  intro hc
  apply h
  have hdata : pyStripL (pyFoldL s.data) = [] := congrArg String.data hc
  rw [pyStripL_fold] at hdata
  have : pyStripL s.data = [] := List.map_eq_nil_iff.mp hdata
  exact String.ext this

theorem q_norm_eq (s : String) :
    pyLower (pyStrip (pyLower s)) = pyLower (pyStrip s) := by
  apply String.ext
  exact fold_strip_fold s.data

theorem upsertRow_exists (table : List IndexRow) (r0 : IndexRow) :
    ∃ row ∈ upsertRow table r0, rowPK row = rowPK r0 ∧ row.title = r0.title := by
  unfold upsertRow
  by_cases hany : table.any (fun t => rowPK t = rowPK r0)
  · rw [if_pos hany]
    rw [List.any_eq_true] at hany
    obtain ⟨t0, ht0, hpk⟩ := hany
    simp only [decide_eq_true_eq] at hpk
    have hmem := List.mem_map_of_mem (fun t =>
      if rowPK t = rowPK r0 then
        { t with
          source_name := r0.source_name
          title := r0.title
          features := r0.features
          indexed_at := r0.indexed_at }
      else t) ht0
    dsimp only at hmem
    rw [if_pos hpk] at hmem
    refine ⟨_, hmem, ?_, rfl⟩
    exact hpk
  · rw [if_neg hany]
    exact ⟨r0, by simp, rfl, rfl⟩

theorem item_to_row_some (kind : String) (now : Nat) (it : ScheduleItem)
    (htitle : pyStrip it.title ≠ "")
    (hskip : ¬(kind = "tv_accessibility" ∧ it.accessibility = [])) :
    item_to_row kind now it = some
      { kind := kind
        provider_id := it.provider_id
        source_id := it.source.id
        source_name := pyStrip it.source.name
        day := it.day.isoformat
        start :=
          match it.start_time with
          | some t => t.fmtHHMM
          | Option.none => ""
        title := pyStrip it.title
        title_norm := pyLower (pyStrip it.title)
        features := if it.accessibility.isEmpty then "" else joinComma it.accessibility
        indexed_at := now } := by
  unfold item_to_row
  have hcond : ¬((kind = "tv_accessibility" && it.accessibility.isEmpty) = true) := by
    intro hb
    rw [Bool.and_eq_true] at hb
    exact hskip ⟨by simpa using hb.1, by simpa [List.isEmpty_iff] using hb.2⟩
  rw [if_neg hcond]
  rw [if_neg htitle]

theorem add_items_single (kind : String) (now : Nat) (it : ScheduleItem)
    (table : List IndexRow) (r0 : IndexRow)
    (h : item_to_row kind now it = some r0) :
    SearchIndex.add_items kind [it] now table = upsertRow table r0 := by
  unfold SearchIndex.add_items
  rw [List.filterMap_cons, h]
  rfl

theorem search_eq_of_ne (query : String) (kinds : List String) (limit : Nat)
    (table : List IndexRow) (h : pyStrip query ≠ "") :
    SearchIndex.search query kinds limit table =
      ((List.insertionSort (fun a b => rowLeB a b = true)
        (searchFilter (pyLower (pyStrip query)).data
          (if kinds.isEmpty then allSearchKinds else kinds) table)).take
        limit).filterMap indexRowDecode := by
  unfold SearchIndex.search
  dsimp only
  rw [if_neg h]

/-- Claim C2 amended: for every item whose title is non-empty after
trimming and which the indexer does not skip (i.e. not a
`tv_accessibility` item with no accessibility tags), with a valid civil
day and a limit not exceeded by the matching rows, `add_items` then
`search(title.lower(), {kind})` returns a row whose identity is
`(kind, provider_id, source.id, day, start as HH:MM, trimmed title)` —
the stored and returned title is the trimmed one. -/
theorem search_index_add_then_search
    (table : List IndexRow) (it : ScheduleItem) (kind : String) (now : Nat)
    (limit : Nat)
    (htitle : pyStrip it.title ≠ "")
    (hskip : ¬(kind = "tv_accessibility" ∧ it.accessibility = []))
    (hday : it.day.Valid)
    (hcount : (searchFilter (pyLower (pyStrip it.title)).data [kind]
        (SearchIndex.add_items kind [it] now table)).length ≤ limit) :
    ∃ r ∈ SearchIndex.search (pyLower it.title) [kind] limit
        (SearchIndex.add_items kind [it] now table),
      r.kind = kind ∧ r.provider_id = it.provider_id ∧
      r.source_id = it.source.id ∧ r.day = it.day ∧
      r.start = (match it.start_time with
        | some t => t.fmtHHMM
        | Option.none => "") ∧
      r.title = pyStrip it.title := by
  obtain ⟨r0, hrow, hf1, hf2, hf3, hf4, hf5, hf6, hf7⟩ :
      ∃ r0, item_to_row kind now it = some r0 ∧ r0.kind = kind ∧
        r0.provider_id = it.provider_id ∧ r0.source_id = it.source.id ∧
        r0.day = it.day.isoformat ∧
        r0.start = (match it.start_time with
          | some t => t.fmtHHMM
          | Option.none => "") ∧
        r0.title = pyStrip it.title ∧
        r0.title_norm = pyLower (pyStrip it.title) :=
    ⟨_, item_to_row_some kind now it htitle hskip, rfl, rfl, rfl, rfl, rfl,
      rfl, rfl⟩
  have hadd := add_items_single kind now it table r0 hrow
  obtain ⟨row, hrowmem, hrowpk, hrowtitle⟩ := upsertRow_exists table r0
  rw [← hadd] at hrowmem
  have hkind : row.kind = kind :=
    (congrArg (fun p => p.1) hrowpk).trans hf1
  have hpid : row.provider_id = it.provider_id :=
    (congrArg (fun p => p.2.1) hrowpk).trans hf2
  have hsid : row.source_id = it.source.id :=
    (congrArg (fun p => p.2.2.1) hrowpk).trans hf3
  have hdayrow : row.day = it.day.isoformat :=
    (congrArg (fun p => p.2.2.2.1) hrowpk).trans hf4
  have hstart : row.start = (match it.start_time with
      | some t => t.fmtHHMM
      | Option.none => "") :=
    (congrArg (fun p => p.2.2.2.2.1) hrowpk).trans hf5
  have hnorm : row.title_norm = pyLower (pyStrip it.title) :=
    (congrArg (fun p => p.2.2.2.2.2) hrowpk).trans hf7
  have htitleeq : row.title = pyStrip it.title := hrowtitle.trans hf6
  have hsel : row ∈ searchFilter (pyLower (pyStrip it.title)).data [kind]
      (SearchIndex.add_items kind [it] now table) := by
    unfold searchFilter
    rw [List.mem_filter]
    refine ⟨hrowmem, ?_⟩
    rw [Bool.and_eq_true]
    constructor
    · rw [hkind]
      simp [List.contains_cons]
    · rw [hnorm]
      exact likeMatch_pct _ _ (likeMatch_esc_self _)
  rw [search_eq_of_ne _ _ _ _ (pyStrip_pyLower_ne it.title htitle)]
  rw [q_norm_eq]
  rw [show (if ([kind] : List String).isEmpty then allSearchKinds else [kind]) =
    [kind] from rfl]
  have hord_mem : row ∈ List.insertionSort (fun a b => rowLeB a b = true)
      (searchFilter (pyLower (pyStrip it.title)).data [kind]
        (SearchIndex.add_items kind [it] now table)) :=
    (List.mem_insertionSort (fun a b => rowLeB a b = true)).mpr hsel
  have htake : (List.insertionSort (fun a b => rowLeB a b = true)
      (searchFilter (pyLower (pyStrip it.title)).data [kind]
        (SearchIndex.add_items kind [it] now table))).take limit =
      List.insertionSort (fun a b => rowLeB a b = true)
        (searchFilter (pyLower (pyStrip it.title)).data [kind]
          (SearchIndex.add_items kind [it] now table)) := by
    apply List.take_of_length_le
    rw [List.length_insertionSort]
    exact hcount
  rw [htake]
  have hdate : dateFromIso row.day = some it.day := by
    rw [hdayrow]
    exact dateFromIso_isoformat it.day hday
  have hdec : indexRowDecode row = some
      { kind := row.kind
        provider_id := row.provider_id
        source_id := row.source_id
        source_name := row.source_name
        day := it.day
        start := row.start
        title := row.title
        subtitle := Option.none
        details_ref := Option.none
        details_summary := Option.none
        accessibility :=
          ((splitOnChar ',' row.features.data).filter (fun p => !p.isEmpty)).map
            (fun l => (⟨l⟩ : String))
        item_id := Option.none } := by
    unfold indexRowDecode
    rw [hdate]
  refine ⟨_, List.mem_filterMap.mpr ⟨row, hord_mem, hdec⟩,
    hkind, hpid, hsid, rfl, hstart, htitleeq⟩

/-- Claim C2 counterexample: a `tv_accessibility` item with no
accessibility tags is skipped by `add_items`, so the subsequent `search`
returns no row at all. -/
theorem search_index_tv_accessibility_counterexample :
    SearchIndex.search (pyLower "Hello") ["tv_accessibility"] 500
      (SearchIndex.add_items "tv_accessibility"
        [⟨"p", ⟨"p", "s", "n"⟩, ⟨2026, 1, 5⟩, Option.none, Option.none,
          "Hello", Option.none, Option.none, Option.none, []⟩] 0 []) = [] := by
  decide

/-- Witness for C2 amended at a concrete tv item. -/
theorem search_index_add_then_search_witness :
    ∃ r ∈ SearchIndex.search
        (pyLower "Hello")
        ["tv"] 500
        (SearchIndex.add_items "tv"
          [⟨"p", ⟨"p", "s", "n"⟩, ⟨2026, 1, 5⟩, some ⟨10, 0⟩, Option.none,
            "Hello", Option.none, Option.none, Option.none, ["AD"]⟩] 7 []),
      r.kind = "tv" ∧
      r.provider_id = (⟨"p", ⟨"p", "s", "n"⟩, ⟨2026, 1, 5⟩, some ⟨10, 0⟩,
        Option.none, "Hello", Option.none, Option.none, Option.none,
        ["AD"]⟩ : ScheduleItem).provider_id ∧
      r.source_id = (⟨"p", ⟨"p", "s", "n"⟩, ⟨2026, 1, 5⟩, some ⟨10, 0⟩,
        Option.none, "Hello", Option.none, Option.none, Option.none,
        ["AD"]⟩ : ScheduleItem).source.id ∧
      r.day = (⟨"p", ⟨"p", "s", "n"⟩, ⟨2026, 1, 5⟩, some ⟨10, 0⟩, Option.none,
        "Hello", Option.none, Option.none, Option.none,
        ["AD"]⟩ : ScheduleItem).day ∧
      r.start = (match (⟨"p", ⟨"p", "s", "n"⟩, ⟨2026, 1, 5⟩, some ⟨10, 0⟩,
          Option.none, "Hello", Option.none, Option.none, Option.none,
          ["AD"]⟩ : ScheduleItem).start_time with
        | some t => t.fmtHHMM
        | Option.none => "") ∧
      r.title = pyStrip (⟨"p", ⟨"p", "s", "n"⟩, ⟨2026, 1, 5⟩, some ⟨10, 0⟩,
        Option.none, "Hello", Option.none, Option.none, Option.none,
        ["AD"]⟩ : ScheduleItem).title :=
  search_index_add_then_search []
    ⟨"p", ⟨"p", "s", "n"⟩, ⟨2026, 1, 5⟩, some ⟨10, 0⟩, Option.none, "Hello",
      Option.none, Option.none, Option.none, ["AD"]⟩
    "tv" 7 500 (by decide) (by decide) (by decide) (by decide)
